import Mathlib

/-!
Verification development for the league-of-legends-rewind synchronization core.

The definitions below are a shallow embedding of the Python source:
  - `server/core/models.py`            (Summoner, Match, MatchParticipant,
                                        MatchTimeline, PlayerYearlyStats)
  - `server/core/aggregation.py`       (PlayerYearlyStatsAggregator)
  - `server/core/tasks/player_tasks.py`
  - `server/core/tasks/match_tasks.py`
  - `server/core/tasks/timeline_tasks.py`

Conventions of the embedding:
  - Django rows become Lean structures holding exactly the fields the code
    writes; machine integers are `Int` (Django IntegerField is signed and no
    claim involves overflow); Python float division is modelled in `Rat`.
  - The database is a `DB` structure of row lists keyed by the natural keys
    the models declare unique; `update_or_create` / `get_or_create` become
    explicit upsert / find-or-insert functions, and the `unique=True`
    constraints of `models.py` are what makes an insert fail.
  - External fetches and remote job outcomes are passed in as explicit
    (`Except`-valued) arguments, since the code treats them as opaque
    collaborators.
  - Python truthiness tests (`or`, `if not x:`) are modelled by the `py*`
    helpers below.
-/

/-- Python `a or default` on an optional string: `None` and `""` are falsy. -/
def pyOrStr (o : Option String) (d : String) : String :=
  match o with
  | none => d
  | some s => if s = "" then d else s

/-- Python truthiness of an optional string (`if not x: ...` guard). -/
def pyTruthyStr (o : Option String) : Bool :=
  match o with
  | none => false
  | some s => s ≠ ""

/-- Python truthiness of an optional string, returning the string when truthy.
Used for `[... for p in l if p.champion_name]`-style filters. -/
def pyStrFilter (o : Option String) : Option String :=
  match o with
  | none => none
  | some s => if s = "" then none else some s

/-- Python truthiness of an optional integer: `None` and `0` are falsy. -/
def pyTruthyInt (o : Option Int) : Bool :=
  match o with
  | none => false
  | some n => n ≠ 0

/-- Raw participant entry of a fetched match body
(`match_data['info']['participants'][i]`), with the keys the code reads. -/
structure ParticipantData where
  puuid : Option String
  summonerId : Option String
  summonerName : Option String
  teamId : Option Int
  championId : Option Int
  championName : Option String
  role : Option String
  lane : Option String
  kills : Option Int
  deaths : Option Int
  assists : Option Int
  win : Option Bool
  goldEarned : Option Int
  totalMinionsKilled : Option Int
  neutralMinionsKilled : Option Int
  totalDamageDealtToChampions : Option Int
  item0 : Option Int
  item1 : Option Int
  item2 : Option Int
  item3 : Option Int
  item4 : Option Int
  item5 : Option Int
  item6 : Option Int
  summoner1Id : Option Int
  summoner2Id : Option Int
  perkStyles : List (Option Int)
  deriving DecidableEq, Repr

/-- Raw match body returned by `RiotApiClient.get_match`, with the keys the
code reads (`metadata.dataVersion`, `info.gameCreation`, `info.gameDuration`,
`info.queueId`, `info.participants`). -/
structure MatchData where
  dataVersion : Option String
  gameCreation : Option Int
  gameDuration : Option Int
  queueId : Option Int
  participants : List ParticipantData
  deriving DecidableEq, Repr

/-- Raw timeline body returned by `RiotApiClient.get_match_timeline`. -/
structure TimelineData where
  dataVersion : Option String
  frameInterval : Option Int
  deriving DecidableEq, Repr

/-- A `Summoner` row, restricted to the fields the participant-processing
path writes (`puuid` and `summoner_id` are unique in `models.py`). -/
structure SummonerRow where
  puuid : String
  summoner_id : String
  name : String
  platform : String
  routing : String
  deriving DecidableEq, Repr

/-- A `Match` row (`match_id` unique).  `parse_datetime` of the raw
`gameCreation` value is modelled as the raw value itself; no claim depends on
the parsed representation, only on its determinism. -/
structure MatchRow where
  match_id : String
  data_version : Option String
  game_creation : Option Int
  game_duration : Option Int
  queue_id : Option Int
  platform : String
  routing : String
  raw : MatchData
  deriving DecidableEq, Repr

/-- A `MatchParticipant` row (`(match, puuid)` unique).  The `match` and
`summoner` foreign keys are carried as their natural keys. -/
structure ParticipantRow where
  match_id : String
  puuid : String
  summoner_puuid : String
  summoner_name : String
  team_id : Int
  champion_id : Option Int
  champion_name : Option String
  role : Option String
  lane : Option String
  kills : Int
  deaths : Int
  assists : Int
  win : Bool
  gold_earned : Int
  total_minions_killed : Int
  neutral_minions_killed : Int
  damage_to_champions : Int
  item0 : Option Int
  item1 : Option Int
  item2 : Option Int
  item3 : Option Int
  item4 : Option Int
  item5 : Option Int
  item6 : Option Int
  spell1 : Option Int
  spell2 : Option Int
  perk_primary_style : Option Int
  perk_sub_style : Option Int
  deriving DecidableEq, Repr

/-- A `MatchTimeline` row (one-to-one with `Match`). -/
structure TimelineRow where
  match_id : String
  data_version : Option String
  frame_interval : Option Int
  raw : TimelineData
  deriving DecidableEq, Repr

/-- The record store: one list per table, keyed by the natural keys declared
unique in `models.py`.  `PlayerYearlyStats` rows are modelled separately by
`Stats` (see below): the stored aggregate is overwritten wholesale by
`update_stats`, so the aggregation claims are about the `Stats` value, not
about store shape. -/
structure DB where
  summoners : List SummonerRow
  matchRows : List MatchRow
  participants : List ParticipantRow
  timelines : List TimelineRow
  deriving DecidableEq, Repr

/-- A `PlayerYearlyStats` row: the counter fields, the diversity summary and
the derived ratios (`models.py`).  Counters are `Int` as in the model;
derived FloatFields are modelled in `Rat`. -/
structure Stats where
  total_matches : Int
  wins : Int
  losses : Int
  total_kills : Int
  total_deaths : Int
  total_assists : Int
  total_gold_earned : Int
  total_minions_killed : Int
  total_neutral_minions_killed : Int
  total_damage_to_champions : Int
  unique_champions_played : Int
  most_played_champion : Option String
  most_played_champion_count : Int
  unique_roles_played : Int
  unique_lanes_played : Int
  win_rate : Rat
  kda : Rat
  average_kills : Rat
  average_deaths : Rat
  average_assists : Rat
  average_gold_per_match : Rat
  average_cs_per_match : Rat
  deriving DecidableEq

/-- The all-zero stats value.  It is both the row produced by
`get_or_create_stats` on first contact (the `defaults` dict plus the model
field defaults) and the dict returned by
`PlayerYearlyStatsAggregator._get_empty_stats`. -/
def emptyStats : Stats where
  total_matches := 0
  wins := 0
  losses := 0
  total_kills := 0
  total_deaths := 0
  total_assists := 0
  total_gold_earned := 0
  total_minions_killed := 0
  total_neutral_minions_killed := 0
  total_damage_to_champions := 0
  unique_champions_played := 0
  most_played_champion := none
  most_played_champion_count := 0
  unique_roles_played := 0
  unique_lanes_played := 0
  win_rate := 0
  kda := 0
  average_kills := 0
  average_deaths := 0
  average_assists := 0
  average_gold_per_match := 0
  average_cs_per_match := 0

/-- Embedding of `PlayerYearlyStats.calculate_derived_stats` (`models.py`):
recomputes every derived ratio from the counters, with the perfect-KDA
convention when `total_deaths = 0`, and zeroes the ratios when there are no
matches. -/
def Stats.calculate_derived_stats (s : Stats) : Stats :=
  if 0 < s.total_matches then
    { s with
      win_rate := (s.wins : Rat) / (s.total_matches : Rat) * 100
      average_kills := (s.total_kills : Rat) / (s.total_matches : Rat)
      average_deaths := (s.total_deaths : Rat) / (s.total_matches : Rat)
      average_assists := (s.total_assists : Rat) / (s.total_matches : Rat)
      average_gold_per_match := (s.total_gold_earned : Rat) / (s.total_matches : Rat)
      average_cs_per_match :=
        ((s.total_minions_killed + s.total_neutral_minions_killed : Int) : Rat) /
          (s.total_matches : Rat)
      kda :=
        if 0 < s.total_deaths then
          ((s.total_kills + s.total_assists : Int) : Rat) / (s.total_deaths : Rat)
        else ((s.total_kills + s.total_assists : Int) : Rat) }
  else
    { s with
      win_rate := 0
      average_kills := 0
      average_deaths := 0
      average_assists := 0
      average_gold_per_match := 0
      average_cs_per_match := 0
      kda := 0 }

/-- Embedding of `PlayerYearlyStatsAggregator._calculate_derived_stats`
(`aggregation.py`): same formulas but only fires when `total_matches > 0`
(the dict keeps its prior ratio values otherwise — there is no else branch). -/
def aggCalculateDerivedStats (s : Stats) : Stats :=
  if 0 < s.total_matches then
    { s with
      win_rate := (s.wins : Rat) / (s.total_matches : Rat) * 100
      average_kills := (s.total_kills : Rat) / (s.total_matches : Rat)
      average_deaths := (s.total_deaths : Rat) / (s.total_matches : Rat)
      average_assists := (s.total_assists : Rat) / (s.total_matches : Rat)
      average_gold_per_match := (s.total_gold_earned : Rat) / (s.total_matches : Rat)
      average_cs_per_match :=
        ((s.total_minions_killed + s.total_neutral_minions_killed : Int) : Rat) /
          (s.total_matches : Rat)
      kda :=
        if 0 < s.total_deaths then
          ((s.total_kills + s.total_assists : Int) : Rat) / (s.total_deaths : Rat)
        else ((s.total_kills + s.total_assists : Int) : Rat) }
  else s

/-- Python `Counter(champions).most_common(1)[0]`: the first-encountered
champion realising the maximal multiplicity (Counter iterates keys in
first-insertion order and `most_common`'s sort is stable). -/
def mostCommon (l : List String) : Option (String × Nat) :=
  l.dedup.foldl
    (fun acc c =>
      match acc with
      | none => some (c, l.count c)
      | some (b, n) => if l.count c > n then some (c, l.count c) else some (b, n))
    none

/-- Embedding of `PlayerYearlyStatsAggregator.calculate_stats_from_matches`
(`aggregation.py`), as a function of the participant rows selected by its
store query (summoner, platform, year window, optional match-id filter). -/
def calculateStatsFromMatches (participants : List ParticipantRow) : Stats :=
  if participants = [] then emptyStats
  else
    let champions := participants.filterMap (fun p => pyStrFilter p.champion_name)
    let roles := participants.filterMap (fun p => pyStrFilter p.role)
    let lanes := participants.filterMap (fun p => pyStrFilter p.lane)
    let base : Stats :=
      { emptyStats with
        total_matches := (participants.length : Int)
        wins := ((participants.filter (fun p => p.win)).length : Int)
        losses := (participants.length : Int) -
          ((participants.filter (fun p => p.win)).length : Int)
        total_kills := (participants.map (fun p => p.kills)).sum
        total_deaths := (participants.map (fun p => p.deaths)).sum
        total_assists := (participants.map (fun p => p.assists)).sum
        total_gold_earned := (participants.map (fun p => p.gold_earned)).sum
        total_minions_killed := (participants.map (fun p => p.total_minions_killed)).sum
        total_neutral_minions_killed :=
          (participants.map (fun p => p.neutral_minions_killed)).sum
        total_damage_to_champions :=
          (participants.map (fun p => p.damage_to_champions)).sum
        unique_champions_played := (champions.dedup.length : Int)
        unique_roles_played := (roles.dedup.length : Int)
        unique_lanes_played := (lanes.dedup.length : Int)
        most_played_champion :=
          match mostCommon champions with
          | some (c, _) => some c
          | none => none
        most_played_champion_count :=
          match mostCommon champions with
          | some (_, n) => (n : Int)
          | none => 0 }
    aggCalculateDerivedStats base

/-- Embedding of `PlayerYearlyStatsAggregator.increment_stats`
(`aggregation.py`).  `existingChampions` is the result of the store query
"distinct champion names of this player's historical participants, excluding
the current row" that the code issues at write time. -/
def incrementStats (s : Stats) (p : ParticipantRow) (existingChampions : List String) : Stats :=
  let s := { s with
    total_matches := s.total_matches + 1
    wins := if p.win then s.wins + 1 else s.wins
    losses := if p.win then s.losses else s.losses + 1
    total_kills := s.total_kills + p.kills
    total_deaths := s.total_deaths + p.deaths
    total_assists := s.total_assists + p.assists
    total_gold_earned := s.total_gold_earned + p.gold_earned
    total_minions_killed := s.total_minions_killed + p.total_minions_killed
    total_neutral_minions_killed := s.total_neutral_minions_killed + p.neutral_minions_killed
    total_damage_to_champions := s.total_damage_to_champions + p.damage_to_champions }
  let s :=
    match pyStrFilter p.champion_name with
    | some c =>
        if existingChampions.contains c then s
        else { s with unique_champions_played := s.unique_champions_played + 1 }
    | none => s
  s.calculate_derived_stats

/-- Embedding of `_analyze_existing_data` (`player_tasks.py`): the ORM query
`Match.objects.filter(match_id__in=match_ids)` scans the match table for ids
in the requested list; `set(...)` is modelled by `dedup`. -/
def analyzeExistingData (db : DB) (match_ids : List String) : List String × List String :=
  let existing_matches :=
    ((db.matchRows.map (fun m => m.match_id)).filter
      (fun mid => decide (mid ∈ match_ids))).dedup
  let pending_matches := match_ids.filter (fun mid => decide (mid ∉ existing_matches))
  (existing_matches, pending_matches)

/-- Embedding of `_analyze_data_gaps` (`player_tasks.py`): `present`,
`missingRecords`, `missingSubRecords` for a requested identifier list. -/
def analyzeDataGaps (db : DB) (all_match_ids : List String) :
    List String × List String × List String :=
  let existing_matches :=
    ((db.matchRows.map (fun m => m.match_id)).filter
      (fun mid => decide (mid ∈ all_match_ids))).dedup
  let existing_timelines :=
    ((db.timelines.map (fun t => t.match_id)).filter
      (fun mid => decide (mid ∈ all_match_ids))).dedup
  let missing_matches := all_match_ids.filter (fun mid => decide (mid ∉ existing_matches))
  let missing_timelines := existing_matches.filter (fun mid => decide (mid ∉ existing_timelines))
  (existing_matches, missing_matches, missing_timelines)

/-- `batch_size = 2000` in `_process_pending_matches`. -/
def batch_size : Nat := 2000

/-- `delay_between_batches = 10` seconds in `_process_pending_matches`. -/
def delay_between_batches : Nat := 10

/-- The Python batch split
`[l[i:i + r] for i in range(0, len(l), r)]`: `range(0, n, r)` has
`(n + r - 1) / r` elements `0, r, 2r, ...` and each slice `l[i:i+r]` is
`(l.drop i).take r`. -/
def pySlices (l : List α) (r : Nat) : List (List α) :=
  (List.range ((l.length + r - 1) / r)).map (fun k => (l.drop (k * r)).take r)

/-- One observable event of the batch loop in `_process_pending_matches`:
dispatching a batch, or sleeping between batches. -/
inductive SchedEvent where
  | batch (jobs : List String)
  | sleepFor (seconds : Nat)
  deriving DecidableEq, Repr

def SchedEvent.isSleep : SchedEvent → Bool
  | .batch _ => false
  | .sleepFor _ => true

/-- The event trace of the batch loop of `_process_pending_matches`: each
batch is dispatched, and `time.sleep(delay_between_batches)` runs only when
`batch_num < len(batches) - 1`. -/
def scheduleTrace : List (List String) → List SchedEvent
  | [] => []
  | [b] => [.batch b]
  | b :: rest => .batch b :: .sleepFor delay_between_batches :: scheduleTrace rest

/-- Outcome of one per-record job as observed by the dispatching loop:
`result.get` returned success, returned a failure dict, the `.delay` call
raised while queuing, or `result.get` raised (timeout / broker error). -/
inductive JobOutcome where
  | success
  | failure
  | queueError
  | getError
  deriving DecidableEq, Repr

/-- One batch iteration of `_process_pending_matches`: the first loop queues
every job, collecting queue-time failures; the second loop awaits each queued
job, counting successes and collecting the rest as failures.  Exceptions are
caught per job, so one job's outcome never affects its siblings. -/
def processBatch (outcome : String → JobOutcome) (batch : List String) : Nat × List String :=
  let batch_results := batch.filter (fun mid => decide (outcome mid ≠ .queueError))
  let queue_failed := batch.filter (fun mid => decide (outcome mid = .queueError))
  let processed := (batch_results.filter (fun mid => decide (outcome mid = .success))).length
  let get_failed := batch_results.filter (fun mid => decide (outcome mid ≠ .success))
  (processed, queue_failed ++ get_failed)

/-- Embedding of `_process_pending_matches` (`player_tasks.py`): split into
batches and accumulate `(processed_matches, failed_matches)` across them. -/
def processPendingMatches (outcome : String → JobOutcome) (pending : List String) :
    Nat × List String :=
  (pySlices pending batch_size).foldl
    (fun acc b =>
      let r := processBatch outcome b
      (acc.1 + r.1, acc.2 ++ r.2))
    (0, [])

/-- Embedding of `_process_missing_matches` (`player_tasks.py`): sequential
per-record dispatch; any non-success outcome (failure dict or exception) is
recorded in `failed_matches` and the loop continues. -/
def processMissingMatches (outcome : String → JobOutcome) (missing : List String) :
    Nat × List String :=
  missing.foldl
    (fun acc mid =>
      match outcome mid with
      | .success => (acc.1 + 1, acc.2)
      | _ => (acc.1, acc.2 ++ [mid]))
    (0, [])

/-- Embedding of `_get_or_create_participant_summoner` (`match_tasks.py`):
`get_or_create` keyed by `puuid`.  A miss inserts a new row with the
`defaults` dict; the insert raises `IntegrityError` when the new row's
`summoner_id` collides with an existing row (`summoner_id` is `unique=True`
in `models.py`), leaving the store unchanged. -/
def newSummonerRow (pd : ParticipantData) (platform routing : String) : SummonerRow :=
  { puuid := pd.puuid.getD ""
    summoner_id := pyOrStr pd.summonerId (pd.puuid.getD "")
    name := pyOrStr pd.summonerName "Unknown"
    platform := platform
    routing := routing }

def getOrCreateParticipantSummoner (db : DB) (pd : ParticipantData)
    (platform routing : String) : Except String (SummonerRow × DB) :=
  match db.summoners.find? (fun x => decide (x.puuid = pd.puuid.getD "")) with
  | some s => .ok (s, db)
  | none =>
      if db.summoners.any (fun x =>
          decide (x.summoner_id = (newSummonerRow pd platform routing).summoner_id)) then
        .error "IntegrityError: duplicate key value violates unique constraint on summoner_id"
      else
        .ok (newSummonerRow pd platform routing,
             { db with summoners := db.summoners ++ [newSummonerRow pd platform routing] })

/-- The `Match` row written by `_create_match_record`'s `update_or_create`
defaults.  (`parse_datetime` is applied only when `gameCreation` is truthy.) -/
def mkMatchRow (match_id : String) (data : MatchData) (platform routing : String) : MatchRow :=
  { match_id := match_id
    data_version := data.dataVersion
    game_creation := if pyTruthyInt data.gameCreation then data.gameCreation else none
    game_duration := data.gameDuration
    queue_id := data.queueId
    platform := platform
    routing := routing
    raw := data }

/-- `update_or_create` on `Match` keyed by `match_id`: replace the row if the
key exists, insert otherwise. -/
def upsertMatchRow (db : DB) (row : MatchRow) : DB :=
  if db.matchRows.any (fun m => decide (m.match_id = row.match_id)) then
    { db with matchRows :=
        db.matchRows.map (fun m => if m.match_id = row.match_id then row else m) }
  else
    { db with matchRows := db.matchRows ++ [row] }

/-- Embedding of `_extract_perk_style` (`match_tasks.py`). -/
def extractPerkStyle (styles : List (Option Int)) (i : Nat) : Option Int :=
  if h : i < styles.length then styles.get ⟨i, h⟩ else none

/-- The `MatchParticipant` row written by `_create_match_participant`'s
`update_or_create` defaults.  (`participant_data.get('teamId') or 0` equals
`getD 0`: both `None` and `0` map to `0`.) -/
def mkParticipantRow (match_id : String) (s : SummonerRow) (pd : ParticipantData) :
    ParticipantRow :=
  { match_id := match_id
    puuid := pd.puuid.getD ""
    summoner_puuid := s.puuid
    summoner_name := pyOrStr pd.summonerName ""
    team_id := pd.teamId.getD 0
    champion_id := pd.championId
    champion_name := pd.championName
    role := pd.role
    lane := pd.lane
    kills := pd.kills.getD 0
    deaths := pd.deaths.getD 0
    assists := pd.assists.getD 0
    win := pd.win.getD false
    gold_earned := pd.goldEarned.getD 0
    total_minions_killed := pd.totalMinionsKilled.getD 0
    neutral_minions_killed := pd.neutralMinionsKilled.getD 0
    damage_to_champions := pd.totalDamageDealtToChampions.getD 0
    item0 := pd.item0
    item1 := pd.item1
    item2 := pd.item2
    item3 := pd.item3
    item4 := pd.item4
    item5 := pd.item5
    item6 := pd.item6
    spell1 := pd.summoner1Id
    spell2 := pd.summoner2Id
    perk_primary_style := extractPerkStyle pd.perkStyles 0
    perk_sub_style := extractPerkStyle pd.perkStyles 1 }

/-- The natural key of a `MatchParticipant` row (`unique_together` in
`models.py`). -/
def partKey (r : ParticipantRow) : String × String := (r.match_id, r.puuid)

/-- `update_or_create` on `MatchParticipant` keyed by `(match, puuid)`. -/
def upsertParticipantRow (db : DB) (row : ParticipantRow) : DB :=
  if db.participants.any (fun q => decide (partKey q = partKey row)) then
    { db with participants :=
        db.participants.map (fun q => if partKey q = partKey row then row else q) }
  else
    { db with participants := db.participants ++ [row] }

/-- Embedding of `_process_participants` (`match_tasks.py`): walk the fetched
participant list; skip entries with a falsy `puuid`; get-or-create the
summoner, upsert the participant row, and continue.  Each write commits on
its own (there is no enclosing `transaction.atomic` in
`sync_match_data_atomic`), so an error leaves all earlier writes in place.
`_update_yearly_stats_incremental` also runs per participant; it writes only
the stats row (modelled separately by `Stats`) and swallows its own
exceptions, so it affects neither these tables nor the control flow. -/
def processParticipants (match_id platform routing : String) :
    DB → List ParticipantData → Except String Nat × DB
  | db, [] => (.ok 0, db)
  | db, pd :: rest =>
      if pyTruthyStr pd.puuid then
        match getOrCreateParticipantSummoner db pd platform routing with
        | .error e => (.error e, db)
        | .ok (s, db1) =>
            let db2 := upsertParticipantRow db1 (mkParticipantRow match_id s pd)
            let r := processParticipants match_id platform routing db2 rest
            (r.1.map (fun n => n + 1), r.2)
      else
        processParticipants match_id platform routing db rest

/-- The result dict of `sync_match_data_atomic` (success case) or of
`handle_task_error` (failure case). -/
structure MatchTaskResult where
  success : Bool
  error : Option String
  participants_count : Nat
  timeline_synced : Bool
  deriving DecidableEq, Repr

/-- Embedding of `sync_match_data_atomic` (`match_tasks.py`).  The fetch
result is an explicit argument; the surrounding `try/except` turns any raised
error into `handle_task_error`'s dict, with the store left exactly as the
failing step left it. -/
def syncMatchDataAtomic (db : DB) (match_id platform routing puuid : String)
    (fetch : Except String MatchData) : MatchTaskResult × DB :=
  match fetch with
  | .error e =>
      ({ success := false, error := some e, participants_count := 0,
         timeline_synced := false }, db)
  | .ok match_data =>
      let db1 := upsertMatchRow db (mkMatchRow match_id match_data platform routing)
      match processParticipants match_id platform routing db1 match_data.participants with
      | (.error e, db2) =>
          ({ success := false, error := some e, participants_count := 0,
             timeline_synced := false }, db2)
      | (.ok n, db2) =>
          let timeline_synced :=
            decide (some puuid ∈ match_data.participants.map (fun p => p.puuid))
          ({ success := true, error := none, participants_count := n,
             timeline_synced := timeline_synced }, db2)

/-- The result dict of `sync_match_timeline_atomic` or of
`handle_task_error`. -/
structure TimelineTaskResult where
  success : Bool
  error : Option String
  status : Option String
  deriving DecidableEq, Repr

/-- Embedding of `_timeline_already_exists` (`timeline_tasks.py`):
`hasattr(match, 'timeline')` on the reverse one-to-one. -/
def timelineAlreadyExists (db : DB) (m : MatchRow) : Bool :=
  db.timelines.any (fun t => decide (t.match_id = m.match_id))

/-- The `MatchTimeline` row written by `_create_timeline_record`. -/
def mkTimelineRow (m : MatchRow) (tld : TimelineData) : TimelineRow :=
  { match_id := m.match_id
    data_version := tld.dataVersion
    frame_interval := tld.frameInterval
    raw := tld }

/-- Embedding of `sync_match_timeline_atomic` (`timeline_tasks.py`).  Returns
the result dict, the store, and the number of external timeline fetches
performed (0 or 1): the existence check runs before the fetch. -/
def syncMatchTimelineAtomic (db : DB) (match_id platform routing : String)
    (fetch : Except String TimelineData) : TimelineTaskResult × DB × Nat :=
  match db.matchRows.find? (fun m => decide (m.match_id = match_id)) with
  | none =>
      ({ success := false, error := some ("Match " ++ match_id ++ " not found"),
         status := none }, db, 0)
  | some m =>
      if timelineAlreadyExists db m then
        ({ success := true, error := none, status := some "already_exists" }, db, 0)
      else
        match fetch with
        | .error e => ({ success := false, error := some e, status := none }, db, 1)
        | .ok tld =>
            ({ success := true, error := none, status := some "created" },
             { db with timelines := db.timelines ++ [mkTimelineRow m tld] }, 1)

/-- The fresh-sync record-processing path for one identifier, with the
enqueued timeline job run to completion: `sync_match_data_atomic` followed —
when a sub-record job was enqueued — by `sync_match_timeline_atomic`. -/
def runFreshMatchSync (db : DB) (match_id platform routing puuid : String)
    (fetch : Except String MatchData) (fetchTimeline : Except String TimelineData) : DB :=
  let r := syncMatchDataAtomic db match_id platform routing puuid fetch
  if r.1.timeline_synced then
    (syncMatchTimelineAtomic r.2 match_id platform routing fetchTimeline).2.1
  else r.2

/-- What `sync_player_data` hands back to its caller: the success dict, the
error dict returned by `handle_task_error`, or a propagating exception.  The
third constructor exists to state the claim about re-raising; the code never
produces it. -/
inductive SyncReturn where
  | ok (processed : Nat) (failed : List String) (total existing : Nat)
  | errorResult (error : String)
  | raised (error : String)
  deriving DecidableEq, Repr

/-- Embedding of `sync_player_data` (`player_tasks.py`).  The two external
fetches are explicit arguments; the body's `try/except Exception` converts
any step failure into `handle_task_error`'s returned dict (which records the
error), so nothing propagates.  `_update_yearly_stats` swallows its own
errors and writes only the stats row. -/
def syncPlayerData (db : DB) (fetchSummoner : Except String SummonerRow)
    (fetchMatchIds : Except String (List String)) (outcome : String → JobOutcome) :
    SyncReturn :=
  match fetchSummoner with
  | .error e => .errorResult e
  | .ok _ =>
      match fetchMatchIds with
      | .error e => .errorResult e
      | .ok match_ids =>
          let a := analyzeExistingData db match_ids
          let r := processPendingMatches outcome a.2
          .ok r.1 r.2 match_ids.length a.1.length

/-! Concrete fixtures used by witnesses and counterexamples. -/

/-- A participant entry as the external source returns it. -/
def samplePD (p sid name : String) (k d a : Int) (w : Bool) : ParticipantData where
  puuid := some p
  summonerId := some sid
  summonerName := some name
  teamId := some 100
  championId := some 103
  championName := some "Ahri"
  role := some "SOLO"
  lane := some "MID"
  kills := some k
  deaths := some d
  assists := some a
  win := some w
  goldEarned := some 10000
  totalMinionsKilled := some 150
  neutralMinionsKilled := some 20
  totalDamageDealtToChampions := some 15000
  item0 := some 1056
  item1 := none
  item2 := none
  item3 := none
  item4 := none
  item5 := none
  item6 := some 3340
  summoner1Id := some 4
  summoner2Id := some 14
  perkStyles := [some 8100, some 8300]

/-- A fetched match body with two participants. -/
def sampleMatchData : MatchData where
  dataVersion := some "2"
  gameCreation := some 1736300000000
  gameDuration := some 1800
  queueId := some 420
  participants := [samplePD "PUUID-A" "SID-A" "Alice" 5 2 7 true,
                   samplePD "PUUID-B" "SID-B" "Bob" 1 6 3 false]

/-- A fetched timeline body. -/
def sampleTimelineData : TimelineData where
  dataVersion := some "2"
  frameInterval := some 60000

/-- A committed participant row used by the aggregation witnesses. -/
def samplePR (mid p : String) (k d a : Int) (w : Bool) (champ : String) : ParticipantRow where
  match_id := mid
  puuid := p
  summoner_puuid := p
  summoner_name := "x"
  team_id := 100
  champion_id := some 1
  champion_name := some champ
  role := some "SOLO"
  lane := some "MID"
  kills := k
  deaths := d
  assists := a
  win := w
  gold_earned := 100
  total_minions_killed := 10
  neutral_minions_killed := 1
  damage_to_champions := 1000
  item0 := none
  item1 := none
  item2 := none
  item3 := none
  item4 := none
  item5 := none
  item6 := none
  spell1 := none
  spell2 := none
  perk_primary_style := none
  perk_sub_style := none

/-- Aggregate states reachable from a freshly created all-zero row through
the two updating operations: the incremental update (`increment_stats`, with
an arbitrary result for its champion-history query) and the full
recomputation overwrite (`update_stats`, which replaces every field with the
value computed by `calculate_stats_from_matches`). -/
inductive ReachableStats : Stats → Prop where
  | init : ReachableStats emptyStats
  | incr (s : Stats) (p : ParticipantRow) (ec : List String) :
      ReachableStats s → ReachableStats (incrementStats s p ec)
  | recompute (s : Stats) (ps : List ParticipantRow) :
      ReachableStats s → ReachableStats (calculateStatsFromMatches ps)

/-- A correctly-serialized incremental run: `increment_stats` applied once
per committed row, in the given order, starting from the freshly created
all-zero aggregate; each step may observe an arbitrary result of its
champion-history store query. -/
def foldIncr (s : Stats) (steps : List (ParticipantRow × List String)) : Stats :=
  steps.foldl (fun acc st => incrementStats acc st.1 st.2) s

/-- A store that already holds a summoner whose unique `summoner_id` will
collide with the second participant of `conflictMatchData`. -/
def dbBeforeConflict : DB where
  summoners := [{ puuid := "PUUID-0", summoner_id := "SID-0", name := "Old",
                  platform := "na1", routing := "americas" }]
  matchRows := []
  participants := []
  timelines := []

/-- A fetched match body whose second participant triggers an
`IntegrityError` on the summoner insert (its `summonerId` equals the
pre-existing row's unique `summoner_id` while its `puuid` is new). -/
def conflictMatchData : MatchData where
  dataVersion := some "2"
  gameCreation := some 1736300000000
  gameDuration := some 1800
  queueId := some 420
  participants := [samplePD "PUUID-A" "SID-A" "Alice" 5 2 7 true,
                   samplePD "PUUID-B" "SID-0" "Bob" 1 6 3 false]

/-- All the rows holding a given participant natural key are exactly the
given row (and the key is present): the state `update_or_create` leaves the
table in for that key. -/
def pinnedPart (l : List ParticipantRow) (row : ParticipantRow) : Prop :=
  (∃ q ∈ l, partKey q = partKey row) ∧ ∀ q ∈ l, partKey q = partKey row → q = row

/-- Same pinning notion for the match table. -/
def pinnedMatch (l : List MatchRow) (row : MatchRow) : Prop :=
  (∃ m ∈ l, m.match_id = row.match_id) ∧ ∀ m ∈ l, m.match_id = row.match_id → m = row

/-! Projection lemmas: both derived-stats routines touch only the ratio
fields, never the counters or the diversity summary. -/

@[simp] theorem calcDerived_total_matches (s : Stats) :
    s.calculate_derived_stats.total_matches = s.total_matches := by
  unfold Stats.calculate_derived_stats; split <;> rfl

@[simp] theorem calcDerived_wins (s : Stats) :
    s.calculate_derived_stats.wins = s.wins := by
  unfold Stats.calculate_derived_stats; split <;> rfl

@[simp] theorem calcDerived_losses (s : Stats) :
    s.calculate_derived_stats.losses = s.losses := by
  unfold Stats.calculate_derived_stats; split <;> rfl

@[simp] theorem calcDerived_kills (s : Stats) :
    s.calculate_derived_stats.total_kills = s.total_kills := by
  unfold Stats.calculate_derived_stats; split <;> rfl

@[simp] theorem calcDerived_deaths (s : Stats) :
    s.calculate_derived_stats.total_deaths = s.total_deaths := by
  unfold Stats.calculate_derived_stats; split <;> rfl

@[simp] theorem calcDerived_assists (s : Stats) :
    s.calculate_derived_stats.total_assists = s.total_assists := by
  unfold Stats.calculate_derived_stats; split <;> rfl

@[simp] theorem calcDerived_gold (s : Stats) :
    s.calculate_derived_stats.total_gold_earned = s.total_gold_earned := by
  unfold Stats.calculate_derived_stats; split <;> rfl

@[simp] theorem calcDerived_minions (s : Stats) :
    s.calculate_derived_stats.total_minions_killed = s.total_minions_killed := by
  unfold Stats.calculate_derived_stats; split <;> rfl

@[simp] theorem calcDerived_neutral (s : Stats) :
    s.calculate_derived_stats.total_neutral_minions_killed = s.total_neutral_minions_killed := by
  unfold Stats.calculate_derived_stats; split <;> rfl

@[simp] theorem calcDerived_damage (s : Stats) :
    s.calculate_derived_stats.total_damage_to_champions = s.total_damage_to_champions := by
  unfold Stats.calculate_derived_stats; split <;> rfl

@[simp] theorem aggCalc_total_matches (s : Stats) :
    (aggCalculateDerivedStats s).total_matches = s.total_matches := by
  unfold aggCalculateDerivedStats; split <;> rfl

@[simp] theorem aggCalc_wins (s : Stats) :
    (aggCalculateDerivedStats s).wins = s.wins := by
  unfold aggCalculateDerivedStats; split <;> rfl

@[simp] theorem aggCalc_losses (s : Stats) :
    (aggCalculateDerivedStats s).losses = s.losses := by
  unfold aggCalculateDerivedStats; split <;> rfl

@[simp] theorem aggCalc_kills (s : Stats) :
    (aggCalculateDerivedStats s).total_kills = s.total_kills := by
  unfold aggCalculateDerivedStats; split <;> rfl

@[simp] theorem aggCalc_deaths (s : Stats) :
    (aggCalculateDerivedStats s).total_deaths = s.total_deaths := by
  unfold aggCalculateDerivedStats; split <;> rfl

@[simp] theorem aggCalc_assists (s : Stats) :
    (aggCalculateDerivedStats s).total_assists = s.total_assists := by
  unfold aggCalculateDerivedStats; split <;> rfl

@[simp] theorem aggCalc_gold (s : Stats) :
    (aggCalculateDerivedStats s).total_gold_earned = s.total_gold_earned := by
  unfold aggCalculateDerivedStats; split <;> rfl

@[simp] theorem aggCalc_minions (s : Stats) :
    (aggCalculateDerivedStats s).total_minions_killed = s.total_minions_killed := by
  unfold aggCalculateDerivedStats; split <;> rfl

@[simp] theorem aggCalc_neutral (s : Stats) :
    (aggCalculateDerivedStats s).total_neutral_minions_killed = s.total_neutral_minions_killed := by
  unfold aggCalculateDerivedStats; split <;> rfl

@[simp] theorem aggCalc_damage (s : Stats) :
    (aggCalculateDerivedStats s).total_damage_to_champions = s.total_damage_to_champions := by
  unfold aggCalculateDerivedStats; split <;> rfl

/-! Characterisation of the derived ratios when at least one match exists:
both routines compute the same formulas from the counters. -/

theorem calcDerived_win_rate (s : Stats) (h : 0 < s.total_matches) :
    s.calculate_derived_stats.win_rate = (s.wins : Rat) / (s.total_matches : Rat) * 100 := by
  unfold Stats.calculate_derived_stats; rw [if_pos h]

theorem calcDerived_average_kills (s : Stats) (h : 0 < s.total_matches) :
    s.calculate_derived_stats.average_kills = (s.total_kills : Rat) / (s.total_matches : Rat) := by
  unfold Stats.calculate_derived_stats; rw [if_pos h]

theorem calcDerived_average_deaths (s : Stats) (h : 0 < s.total_matches) :
    s.calculate_derived_stats.average_deaths = (s.total_deaths : Rat) / (s.total_matches : Rat) := by
  unfold Stats.calculate_derived_stats; rw [if_pos h]

theorem calcDerived_average_assists (s : Stats) (h : 0 < s.total_matches) :
    s.calculate_derived_stats.average_assists = (s.total_assists : Rat) / (s.total_matches : Rat) := by
  unfold Stats.calculate_derived_stats; rw [if_pos h]

theorem calcDerived_average_gold (s : Stats) (h : 0 < s.total_matches) :
    s.calculate_derived_stats.average_gold_per_match =
      (s.total_gold_earned : Rat) / (s.total_matches : Rat) := by
  unfold Stats.calculate_derived_stats; rw [if_pos h]

theorem calcDerived_average_cs (s : Stats) (h : 0 < s.total_matches) :
    s.calculate_derived_stats.average_cs_per_match =
      ((s.total_minions_killed + s.total_neutral_minions_killed : Int) : Rat) /
        (s.total_matches : Rat) := by
  unfold Stats.calculate_derived_stats; rw [if_pos h]

theorem calcDerived_kda (s : Stats) (h : 0 < s.total_matches) :
    s.calculate_derived_stats.kda =
      if 0 < s.total_deaths then
        ((s.total_kills + s.total_assists : Int) : Rat) / (s.total_deaths : Rat)
      else ((s.total_kills + s.total_assists : Int) : Rat) := by
  unfold Stats.calculate_derived_stats; rw [if_pos h]

theorem aggCalc_win_rate (s : Stats) (h : 0 < s.total_matches) :
    (aggCalculateDerivedStats s).win_rate = (s.wins : Rat) / (s.total_matches : Rat) * 100 := by
  unfold aggCalculateDerivedStats; rw [if_pos h]

theorem aggCalc_average_kills (s : Stats) (h : 0 < s.total_matches) :
    (aggCalculateDerivedStats s).average_kills = (s.total_kills : Rat) / (s.total_matches : Rat) := by
  unfold aggCalculateDerivedStats; rw [if_pos h]

theorem aggCalc_average_deaths (s : Stats) (h : 0 < s.total_matches) :
    (aggCalculateDerivedStats s).average_deaths = (s.total_deaths : Rat) / (s.total_matches : Rat) := by
  unfold aggCalculateDerivedStats; rw [if_pos h]

theorem aggCalc_average_assists (s : Stats) (h : 0 < s.total_matches) :
    (aggCalculateDerivedStats s).average_assists = (s.total_assists : Rat) / (s.total_matches : Rat) := by
  unfold aggCalculateDerivedStats; rw [if_pos h]

theorem aggCalc_average_gold (s : Stats) (h : 0 < s.total_matches) :
    (aggCalculateDerivedStats s).average_gold_per_match =
      (s.total_gold_earned : Rat) / (s.total_matches : Rat) := by
  unfold aggCalculateDerivedStats; rw [if_pos h]

theorem aggCalc_average_cs (s : Stats) (h : 0 < s.total_matches) :
    (aggCalculateDerivedStats s).average_cs_per_match =
      ((s.total_minions_killed + s.total_neutral_minions_killed : Int) : Rat) /
        (s.total_matches : Rat) := by
  unfold aggCalculateDerivedStats; rw [if_pos h]

theorem aggCalc_kda (s : Stats) (h : 0 < s.total_matches) :
    (aggCalculateDerivedStats s).kda =
      if 0 < s.total_deaths then
        ((s.total_kills + s.total_assists : Int) : Rat) / (s.total_deaths : Rat)
      else ((s.total_kills + s.total_assists : Int) : Rat) := by
  unfold aggCalculateDerivedStats; rw [if_pos h]

/-- C8: with at least one match and zero total deaths, both derived-stats
routines (`PlayerYearlyStats.calculate_derived_stats` and
`PlayerYearlyStatsAggregator._calculate_derived_stats`) set the KDA ratio to
exactly `total_kills + total_assists`; with positive total deaths they set it
to `(total_kills + total_assists) / total_deaths`. -/
theorem kda_perfect_convention (s : Stats) (hm : 0 < s.total_matches) :
    (s.total_deaths = 0 →
      s.calculate_derived_stats.kda = ((s.total_kills + s.total_assists : Int) : Rat) ∧
      (aggCalculateDerivedStats s).kda = ((s.total_kills + s.total_assists : Int) : Rat)) ∧
    (0 < s.total_deaths →
      s.calculate_derived_stats.kda =
        ((s.total_kills + s.total_assists : Int) : Rat) / (s.total_deaths : Rat) ∧
      (aggCalculateDerivedStats s).kda =
        ((s.total_kills + s.total_assists : Int) : Rat) / (s.total_deaths : Rat)) := by
  constructor
  · intro hd
    rw [calcDerived_kda s hm, aggCalc_kda s hm, hd]
    simp
  · intro hd
    rw [calcDerived_kda s hm, aggCalc_kda s hm, if_pos hd]
    exact ⟨rfl, rfl⟩

/-- Witness for C8: a concrete 2-match, 0-death state with 5 kills and 3
assists yields KDA exactly 8. -/
theorem kda_perfect_convention_witness :
    ({ emptyStats with
        total_matches := 2, total_kills := 5, total_assists := 3 } : Stats).calculate_derived_stats.kda
      = (8 : Rat) := by
  have h := (kda_perfect_convention
    { emptyStats with total_matches := 2, total_kills := 5, total_assists := 3 }
    (by decide)).1 (by decide)
  exact h.1.trans (by norm_num)

/-- C9: when the match exists and already has a timeline, the Sub-record
Processor returns the already-exists result immediately, leaves the store
untouched, and performs zero external fetches (the existence check runs
before the fetch). -/
theorem timeline_short_circuit (db : DB) (match_id platform routing : String)
    (fetch : Except String TimelineData) (m : MatchRow)
    (hm : db.matchRows.find? (fun x => decide (x.match_id = match_id)) = some m)
    (ht : timelineAlreadyExists db m = true) :
    syncMatchTimelineAtomic db match_id platform routing fetch =
      ({ success := true, error := none, status := some "already_exists" }, db, 0) := by
  unfold syncMatchTimelineAtomic
  rw [hm]
  simp [ht]

/-- Witness for C9: a store holding match M1 and its timeline; the processor
returns already-exists, the store is unchanged and no fetch happens even
though the fetch oracle would fail. -/
theorem timeline_short_circuit_witness :
    syncMatchTimelineAtomic
      { summoners := []
        matchRows := [{ match_id := "M1", data_version := some "2",
                        game_creation := some 1736300000000, game_duration := some 1800,
                        queue_id := some 420, platform := "na1", routing := "americas",
                        raw := sampleMatchData }]
        participants := []
        timelines := [{ match_id := "M1", data_version := some "2",
                        frame_interval := some 60000, raw := sampleTimelineData }] }
      "M1" "na1" "americas" (.error "network down") =
      ({ success := true, error := none, status := some "already_exists" },
       { summoners := []
         matchRows := [{ match_id := "M1", data_version := some "2",
                         game_creation := some 1736300000000, game_duration := some 1800,
                         queue_id := some 420, platform := "na1", routing := "americas",
                         raw := sampleMatchData }]
         participants := []
         timelines := [{ match_id := "M1", data_version := some "2",
                         frame_interval := some 60000, raw := sampleTimelineData }] }, 0) := by
  exact timeline_short_circuit _ _ _ _ _
    { match_id := "M1", data_version := some "2", game_creation := some 1736300000000,
      game_duration := some 1800, queue_id := some 420, platform := "na1",
      routing := "americas", raw := sampleMatchData }
    (by decide) (by decide)

/-! Counter projections of the incremental update. -/

@[simp] theorem incr_total_matches (s : Stats) (p : ParticipantRow) (ec : List String) :
    (incrementStats s p ec).total_matches = s.total_matches + 1 := by
  unfold incrementStats
  (repeat' split) <;> simp_all

@[simp] theorem incr_wins (s : Stats) (p : ParticipantRow) (ec : List String) :
    (incrementStats s p ec).wins = if p.win then s.wins + 1 else s.wins := by
  unfold incrementStats
  (repeat' split) <;> simp_all

@[simp] theorem incr_losses (s : Stats) (p : ParticipantRow) (ec : List String) :
    (incrementStats s p ec).losses = if p.win then s.losses else s.losses + 1 := by
  unfold incrementStats
  (repeat' split) <;> simp_all

@[simp] theorem incr_kills (s : Stats) (p : ParticipantRow) (ec : List String) :
    (incrementStats s p ec).total_kills = s.total_kills + p.kills := by
  unfold incrementStats
  (repeat' split) <;> simp_all

@[simp] theorem incr_deaths (s : Stats) (p : ParticipantRow) (ec : List String) :
    (incrementStats s p ec).total_deaths = s.total_deaths + p.deaths := by
  unfold incrementStats
  (repeat' split) <;> simp_all

@[simp] theorem incr_assists (s : Stats) (p : ParticipantRow) (ec : List String) :
    (incrementStats s p ec).total_assists = s.total_assists + p.assists := by
  unfold incrementStats
  (repeat' split) <;> simp_all

@[simp] theorem incr_gold (s : Stats) (p : ParticipantRow) (ec : List String) :
    (incrementStats s p ec).total_gold_earned = s.total_gold_earned + p.gold_earned := by
  unfold incrementStats
  (repeat' split) <;> simp_all

@[simp] theorem incr_minions (s : Stats) (p : ParticipantRow) (ec : List String) :
    (incrementStats s p ec).total_minions_killed =
      s.total_minions_killed + p.total_minions_killed := by
  unfold incrementStats
  (repeat' split) <;> simp_all

@[simp] theorem incr_neutral (s : Stats) (p : ParticipantRow) (ec : List String) :
    (incrementStats s p ec).total_neutral_minions_killed =
      s.total_neutral_minions_killed + p.neutral_minions_killed := by
  unfold incrementStats
  (repeat' split) <;> simp_all

@[simp] theorem incr_damage (s : Stats) (p : ParticipantRow) (ec : List String) :
    (incrementStats s p ec).total_damage_to_champions =
      s.total_damage_to_champions + p.damage_to_champions := by
  unfold incrementStats
  (repeat' split) <;> simp_all

/-- C10: every aggregate-updating operation preserves
`wins + losses = total_matches`: the incremental update adds one match and
one win or one loss, the full recomputation sets `losses` to
`total_matches - wins`, and the fresh row is all zeros, so every reachable
state satisfies the invariant. -/
theorem wins_losses_invariant (s : Stats) (h : ReachableStats s) :
    s.wins + s.losses = s.total_matches := by
  induction h with
  | init => decide
  | incr s p ec _ ih =>
      by_cases hw : p.win <;> simp [hw] <;> omega
  | recompute s ps _ _ =>
      unfold calculateStatsFromMatches
      split
      · decide
      · simp

/-- Witness for C10: the invariant holds for a concrete state reached by one
incremental update (a win) followed by checking the fresh row and a full
recomputation over two concrete rows. -/
theorem wins_losses_invariant_witness :
    (incrementStats emptyStats (samplePR "M1" "A" 5 2 7 true "Ahri") []).wins +
      (incrementStats emptyStats (samplePR "M1" "A" 5 2 7 true "Ahri") []).losses =
      (incrementStats emptyStats (samplePR "M1" "A" 5 2 7 true "Ahri") []).total_matches ∧
    (calculateStatsFromMatches [samplePR "M1" "A" 5 2 7 true "Ahri",
        samplePR "M2" "A" 1 6 3 false "Lux"]).wins +
      (calculateStatsFromMatches [samplePR "M1" "A" 5 2 7 true "Ahri",
        samplePR "M2" "A" 1 6 3 false "Lux"]).losses =
      (calculateStatsFromMatches [samplePR "M1" "A" 5 2 7 true "Ahri",
        samplePR "M2" "A" 1 6 3 false "Lux"]).total_matches := by
  constructor
  · exact wins_losses_invariant _ (ReachableStats.incr _ _ _ ReachableStats.init)
  · exact wins_losses_invariant _ (ReachableStats.recompute emptyStats _ ReachableStats.init)

/-- C1: gap analysis returns `present`, `missingRecords`, `missingSubRecords`
with `present` and `missingRecords` disjoint, their union the requested set,
and `missingSubRecords ⊆ present`; the fresh-sync variant
`_analyze_existing_data` satisfies the same partition property. -/
theorem gap_analysis_correct (db : DB) (ids : List String) :
    ((analyzeDataGaps db ids).1.toFinset ∩ (analyzeDataGaps db ids).2.1.toFinset = ∅) ∧
    ((analyzeDataGaps db ids).1.toFinset ∪ (analyzeDataGaps db ids).2.1.toFinset = ids.toFinset) ∧
    ((analyzeDataGaps db ids).2.2 ⊆ (analyzeDataGaps db ids).1) ∧
    ((analyzeExistingData db ids).1.toFinset ∩ (analyzeExistingData db ids).2.toFinset = ∅) ∧
    ((analyzeExistingData db ids).1.toFinset ∪ (analyzeExistingData db ids).2.toFinset
      = ids.toFinset) := by
  refine ⟨?_, ?_, ?_, ?_, ?_⟩
  · ext a
    simp [analyzeDataGaps, List.mem_filter]
    tauto
  · ext a
    simp [analyzeDataGaps, List.mem_filter]
    constructor
    · rintro (⟨_, h⟩ | ⟨h, _⟩) <;> exact h
    · intro ha
      rcases Classical.em (∃ m ∈ db.matchRows, m.match_id = a) with h | h
      · exact Or.inl ⟨h, ha⟩
      · exact Or.inr ⟨ha, fun x hx hm _ => h ⟨x, hx, hm⟩⟩
  · intro x hx
    simp only [analyzeDataGaps, List.mem_filter] at hx
    exact hx.1
  · ext a
    simp [analyzeExistingData, List.mem_filter]
    tauto
  · ext a
    simp [analyzeExistingData, List.mem_filter]
    constructor
    · rintro (⟨_, h⟩ | ⟨h, _⟩) <;> exact h
    · intro ha
      rcases Classical.em (∃ m ∈ db.matchRows, m.match_id = a) with h | h
      · exact Or.inl ⟨h, ha⟩
      · exact Or.inr ⟨ha, fun x hx hm _ => h ⟨x, hx, hm⟩⟩

/-- Counterexample for C5 as stated: when the identity-resolution step fails,
`sync_player_data` does not re-raise — its `except` handler returns
`handle_task_error`'s structured error dict to the caller. -/
theorem step_failure_not_reraised :
    syncPlayerData { summoners := [], matchRows := [], participants := [], timelines := [] }
      (.error "summoner lookup failed") (.ok ["M1"]) (fun _ => .success) =
      .errorResult "summoner lookup failed" := by
  rfl

/-- C5 (amended): a failing non-per-record step (identity resolution or
remote id listing) makes the run record the error and return the structured
error result — without re-raising — while per-record failures never raise:
with both steps succeeding the run always returns the structured success
result enumerating processed and failed identifiers. -/
theorem step_failure_policy (db : DB) (fetchSummoner : Except String SummonerRow)
    (fetchMatchIds : Except String (List String)) (outcome : String → JobOutcome) :
    (∀ e, fetchSummoner = .error e →
      syncPlayerData db fetchSummoner fetchMatchIds outcome = .errorResult e) ∧
    (∀ s e, fetchSummoner = .ok s → fetchMatchIds = .error e →
      syncPlayerData db fetchSummoner fetchMatchIds outcome = .errorResult e) ∧
    (∀ s ids, fetchSummoner = .ok s → fetchMatchIds = .ok ids →
      syncPlayerData db fetchSummoner fetchMatchIds outcome =
        .ok (processPendingMatches outcome (analyzeExistingData db ids).2).1
            (processPendingMatches outcome (analyzeExistingData db ids).2).2
            ids.length (analyzeExistingData db ids).1.length) := by
  refine ⟨?_, ?_, ?_⟩
  · intro e he
    subst he
    rfl
  · intro s e hs he
    subst hs
    subst he
    rfl
  · intro s ids hs hi
    subst hs
    subst hi
    rfl

/-- Witness for C5 (amended), per-record branch: one failing record out of
two yields a structured success result with the failed id listed, and
nothing raises. -/
theorem step_failure_policy_witness :
    syncPlayerData { summoners := [], matchRows := [], participants := [], timelines := [] }
      (.ok { puuid := "P", summoner_id := "S", name := "n", platform := "na1",
             routing := "americas" })
      (.ok ["M1", "M2"])
      (fun mid => if mid = "M2" then .failure else .success) =
      .ok 1 ["M2"] 2 0 := by
  have h := (step_failure_policy
    { summoners := [], matchRows := [], participants := [], timelines := [] }
    (.ok { puuid := "P", summoner_id := "S", name := "n", platform := "na1",
           routing := "americas" })
    (.ok ["M1", "M2"])
    (fun mid => if mid = "M2" then .failure else .success)).2.2
    { puuid := "P", summoner_id := "S", name := "n", platform := "na1",
      routing := "americas" }
    ["M1", "M2"] rfl rfl
  exact h.trans (by decide)

/-! Lemmas about the batch split and the batch-loop trace. -/

theorem pySlices_nil (r : Nat) : pySlices ([] : List α) r = [] := by
  unfold pySlices
  have h0 : (([] : List α).length + r - 1) / r = 0 := by
    simp only [List.length_nil]
    rcases Nat.eq_zero_or_pos r with hr | hr
    · subst hr; rfl
    · exact Nat.div_eq_of_lt (by omega)
  rw [h0]
  rfl

theorem pySlices_cons (l : List α) (r : Nat) (hr : 0 < r) (hl : l ≠ []) :
    pySlices l r = l.take r :: pySlices (l.drop r) r := by
  have h1 : 1 ≤ l.length := by
    cases l with
    | nil => exact absurd rfl hl
    | cons a tl => simp
  have hcount : ((l.drop r).length + r - 1) / r = (l.length - 1) / r := by
    rw [List.length_drop]
    rcases le_or_lt l.length r with h | h
    · have e1 : l.length - r = 0 := by omega
      rw [e1, Nat.div_eq_of_lt (by omega), Nat.div_eq_of_lt (by omega)]
    · rw [show l.length - r + r - 1 = (l.length - r - 1) + r by omega,
        Nat.add_div_right _ hr,
        show l.length - 1 = (l.length - r - 1) + r by omega,
        Nat.add_div_right _ hr]
  unfold pySlices
  rw [show l.length + r - 1 = (l.length - 1) + r by omega, Nat.add_div_right _ hr,
    List.range_succ_eq_map, hcount]
  simp only [List.map_cons, List.map_map, Nat.zero_mul, List.drop_zero]
  congr 1
  apply List.map_congr_left
  intro k _
  simp only [Function.comp_apply, List.drop_drop]
  rw [show Nat.succ k * r = k * r + r by rw [Nat.succ_mul], Nat.add_comm]

theorem pySlices_flatten (r : Nat) (hr : 0 < r) : ∀ (l : List α), (pySlices l r).flatten = l
  | [] => by rw [pySlices_nil]; rfl
  | a :: tl => by
      rw [pySlices_cons (a :: tl) r hr (by simp), List.flatten_cons,
        pySlices_flatten r hr ((a :: tl).drop r), List.take_append_drop]
  termination_by l => l.length
  decreasing_by simp [List.length_drop]; omega

theorem pySlices_batch_le (l : List α) (r : Nat) : ∀ b ∈ pySlices l r, b.length ≤ r := by
  intro b hb
  simp only [pySlices, List.mem_map] at hb
  obtain ⟨k, _, rfl⟩ := hb
  simp [List.length_take]

theorem pySlices_length (l : List α) (r : Nat) :
    (pySlices l r).length = (l.length + r - 1) / r := by
  simp [pySlices]

theorem scheduleTrace_sleep_count : ∀ (bs : List (List String)),
    (scheduleTrace bs).countP SchedEvent.isSleep = bs.length - 1
  | [] => rfl
  | [_] => rfl
  | b :: c :: rest => by
      have ih := scheduleTrace_sleep_count (c :: rest)
      simp only [scheduleTrace, List.countP_cons, SchedEvent.isSleep] at ih ⊢
      simp at ih ⊢
      omega

theorem scheduleTrace_getLast : ∀ (bs : List (List String)),
    (scheduleTrace bs).getLast? = bs.getLast?.map SchedEvent.batch
  | [] => rfl
  | [_] => rfl
  | b :: c :: rest => by
      have ih := scheduleTrace_getLast (c :: rest)
      have hne : scheduleTrace (c :: rest) ≠ [] := by
        cases rest <;> simp [scheduleTrace]
      obtain ⟨x, T, hxT⟩ := List.exists_cons_of_ne_nil hne
      rw [show scheduleTrace (b :: c :: rest) =
          .batch b :: .sleepFor delay_between_batches :: scheduleTrace (c :: rest) from rfl,
        List.getLast?_cons_cons, hxT, List.getLast?_cons_cons, ← hxT, ih,
        List.getLast?_cons_cons]

theorem scheduleTrace_sleep_val : ∀ (bs : List (List String)) (e : SchedEvent),
    e ∈ scheduleTrace bs → e.isSleep = true → e = SchedEvent.sleepFor delay_between_batches
  | [], e => by simp [scheduleTrace]
  | [b], e => by
      intro he hs
      simp only [scheduleTrace, List.mem_singleton] at he
      subst he
      simp [SchedEvent.isSleep] at hs
  | b :: c :: rest, e => by
      intro he hs
      simp only [scheduleTrace, List.mem_cons] at he
      rcases he with rfl | rfl | he
      · simp [SchedEvent.isSleep] at hs
      · rfl
      · exact scheduleTrace_sleep_val (c :: rest) e he hs

/-- C6: for any job list and any positive ceiling, the batch split of
`_process_pending_matches` yields exactly `⌈N/R⌉` batches, each of size at
most `R`, whose concatenation is the job list; the loop sleeps the rate-limit
window exactly between consecutive batches (one sleep fewer than batches,
never after the final batch), and an empty job list yields zero batches and
no sleep. -/
theorem batch_scheduler_correct (l : List String) (r : Nat) (hr : 0 < r) :
    (pySlices l r).length = l.length ⌈/⌉ r ∧
    (∀ b ∈ pySlices l r, b.length ≤ r) ∧
    (pySlices l r).flatten = l ∧
    (scheduleTrace (pySlices l r)).countP SchedEvent.isSleep = (pySlices l r).length - 1 ∧
    (∀ e ∈ scheduleTrace (pySlices l r), e.isSleep = true →
      e = SchedEvent.sleepFor delay_between_batches) ∧
    (l = [] → pySlices l r = [] ∧ scheduleTrace (pySlices l r) = []) ∧
    (∀ w, (scheduleTrace (pySlices l r)).getLast? ≠ some (SchedEvent.sleepFor w)) := by
  refine ⟨(pySlices_length l r).trans (Nat.ceilDiv_eq_add_pred_div _ _).symm,
    pySlices_batch_le l r, pySlices_flatten r hr l,
    scheduleTrace_sleep_count _, fun e he hs => scheduleTrace_sleep_val _ e he hs,
    ?_, ?_⟩
  · rintro rfl
    rw [pySlices_nil]
    exact ⟨rfl, rfl⟩
  · intro w hw
    rw [scheduleTrace_getLast] at hw
    rcases h : (pySlices l r).getLast? with _ | x <;> rw [h] at hw <;> simp at hw

/-- Witness for C6: five jobs with ceiling 2 give 3 batches of sizes 2,2,1,
whose concatenation is the list, with exactly 2 sleeps and a batch as the
last event. -/
theorem batch_scheduler_correct_witness :
    (pySlices ["a", "b", "c", "d", "e"] 2).length = 3 ∧
    (pySlices ["a", "b", "c", "d", "e"] 2).flatten = ["a", "b", "c", "d", "e"] ∧
    (scheduleTrace (pySlices ["a", "b", "c", "d", "e"] 2)).countP SchedEvent.isSleep = 2 := by
  have h := batch_scheduler_correct ["a", "b", "c", "d", "e"] 2 (by decide)
  refine ⟨?_, h.2.2.1, ?_⟩
  · exact h.1.trans (by decide)
  · exact h.2.2.2.1.trans (by rw [h.1]; decide)

/-! Lemmas about per-batch outcome bookkeeping. -/

theorem filter_split_perm (p q : α → Bool) (h : ∀ a, q a = true → p a = true) :
    ∀ l : List α, (l.filter q ++ l.filter (fun a => !(q a) && p a)).Perm (l.filter p)
  | [] => by simp
  | a :: t => by
      have ih := filter_split_perm p q h t
      by_cases hq : q a = true
      · have hp : p a = true := h a hq
        simp only [List.filter_cons, hq, hp, Bool.not_true, Bool.false_and, if_true,
          if_false, cond_true, cond_false]
        simpa using ih.cons a
      · have hq' : q a = false := by revert hq; cases q a <;> simp
        by_cases hp : p a = true
        · simp only [List.filter_cons, hq', hp, Bool.not_false, Bool.true_and]
          simpa using List.perm_middle.trans (ih.cons a)
        · have hp' : p a = false := by revert hp; cases p a <;> simp
          simpa [List.filter_cons, hq', hp'] using ih

theorem processBatch_processed (outcome : String → JobOutcome) (batch : List String) :
    (processBatch outcome batch).1 =
      (batch.filter (fun mid => decide (outcome mid = .success))).length := by
  unfold processBatch
  simp only [List.filter_filter]
  congr 1
  apply List.filter_congr
  intro mid _
  cases h : outcome mid <;> simp [h]

theorem processBatch_failed_perm (outcome : String → JobOutcome) (batch : List String) :
    ((processBatch outcome batch).2).Perm
      (batch.filter (fun mid => decide (outcome mid ≠ .success))) := by
  unfold processBatch
  simp only [List.filter_filter]
  have key := filter_split_perm (fun mid => decide (outcome mid ≠ .success))
    (fun mid => decide (outcome mid = .queueError))
    (fun mid hq => by
      simp only [decide_eq_true_eq] at hq ⊢
      rw [hq]
      decide) batch
  refine List.Perm.trans ?_ key
  apply List.Perm.append_left
  rw [List.filter_congr]
  intro mid _
  cases h : outcome mid <;> simp [h]

theorem processPendingMatches_foldl (outcome : String → JobOutcome) :
    ∀ (bs : List (List String)) (a : Nat) (f : List String),
    bs.foldl (fun acc b =>
        let r := processBatch outcome b
        (acc.1 + r.1, acc.2 ++ r.2)) (a, f) =
      (a + (bs.map (fun b => (processBatch outcome b).1)).sum,
       f ++ (bs.map (fun b => (processBatch outcome b).2)).flatten)
  | [], a, f => by simp
  | b :: t, a, f => by
      simp only [List.foldl_cons, List.map_cons, List.sum_cons, List.flatten_cons]
      rw [processPendingMatches_foldl outcome t]
      simp [Nat.add_assoc, List.append_assoc]

theorem flatten_map_perm (f g : List String → List String) (h : ∀ b, (f b).Perm (g b)) :
    ∀ (bs : List (List String)), ((bs.map f).flatten).Perm ((bs.map g).flatten)
  | [] => by simp
  | b :: t => by
      simp only [List.map_cons, List.flatten_cons]
      exact (h b).append (flatten_map_perm f g h t)

theorem processMissingMatches_foldl (outcome : String → JobOutcome) :
    ∀ (missing : List String) (a : Nat) (f : List String),
    missing.foldl (fun acc mid =>
        match outcome mid with
        | .success => (acc.1 + 1, acc.2)
        | _ => (acc.1, acc.2 ++ [mid])) (a, f) =
      (a + (missing.filter (fun mid => decide (outcome mid = .success))).length,
       f ++ missing.filter (fun mid => decide (outcome mid ≠ .success)))
  | [], a, f => by simp
  | mid :: t, a, f => by
      simp only [List.foldl_cons]
      cases h : outcome mid <;>
        simp only [List.filter_cons, h] <;>
        rw [processMissingMatches_foldl outcome t] <;>
        simp [h, Nat.add_assoc, List.append_assoc, Nat.add_comm 1]

/-- C7: for any assignment of per-job outcomes, the scheduler records every
job's outcome independently: the returned success count is the number of
successful jobs over all batches, the returned failed-identifier list is, up
to order, exactly the non-successful identifiers (so any one job's failure
leaves every sibling's outcome in place), and every failed identifier appears
in the list.  The sequential recovery loop `_process_missing_matches`
satisfies the same contract with the order preserved exactly. -/
theorem batch_partial_failure (outcome : String → JobOutcome)
    (pending missing : List String) :
    (processPendingMatches outcome pending).1 =
      (pending.filter (fun mid => decide (outcome mid = .success))).length ∧
    ((processPendingMatches outcome pending).2).Perm
      (pending.filter (fun mid => decide (outcome mid ≠ .success))) ∧
    (∀ mid ∈ pending, outcome mid ≠ .success →
      mid ∈ (processPendingMatches outcome pending).2) ∧
    (processMissingMatches outcome missing).1 =
      (missing.filter (fun mid => decide (outcome mid = .success))).length ∧
    (processMissingMatches outcome missing).2 =
      missing.filter (fun mid => decide (outcome mid ≠ .success)) := by
  have hflat : (pySlices pending batch_size).flatten = pending :=
    pySlices_flatten batch_size (by decide) pending
  have hfold := processPendingMatches_foldl outcome (pySlices pending batch_size) 0 []
  have hperm : ((processPendingMatches outcome pending).2).Perm
      (pending.filter (fun mid => decide (outcome mid ≠ .success))) := by
    unfold processPendingMatches
    rw [hfold]
    simp only [List.nil_append]
    have h1 := flatten_map_perm (fun b => (processBatch outcome b).2)
      (fun b => b.filter (fun mid => decide (outcome mid ≠ .success)))
      (fun b => processBatch_failed_perm outcome b) (pySlices pending batch_size)
    refine h1.trans ?_
    rw [← List.filter_flatten, hflat]
  refine ⟨?_, hperm, ?_, ?_, ?_⟩
  · unfold processPendingMatches
    rw [hfold]
    simp only [Nat.zero_add]
    have h1 : (pySlices pending batch_size).map
        (fun b => (processBatch outcome b).1) =
        (pySlices pending batch_size).map
          (fun b => (b.filter (fun mid => decide (outcome mid = .success))).length) := by
      apply List.map_congr_left
      intro b _
      exact processBatch_processed outcome b
    rw [h1, show ((pySlices pending batch_size).map
        (fun b => (b.filter (fun mid => decide (outcome mid = .success))).length)) =
        ((pySlices pending batch_size).map
          (fun b => b.filter (fun mid => decide (outcome mid = .success)))).map
            List.length by rw [List.map_map]; rfl,
      ← List.length_flatten, ← List.filter_flatten, hflat]
  · intro mid hm ho
    rw [hperm.mem_iff]
    simp only [List.mem_filter, decide_eq_true_eq]
    exact ⟨hm, ho⟩
  · unfold processMissingMatches
    rw [processMissingMatches_foldl outcome missing 0 []]
    simp
  · unfold processMissingMatches
    rw [processMissingMatches_foldl outcome missing 0 []]
    simp

/-- Witness for C7: in a five-job batch where job 3 fails permanently, jobs
1, 2, 4, 5 are still counted as successes and the failed id is exactly the
returned failure list. -/
theorem batch_partial_failure_witness :
    (processPendingMatches (fun mid => if mid = "M3" then .failure else .success)
      ["M1", "M2", "M3", "M4", "M5"]).1 = 4 ∧
    (processPendingMatches (fun mid => if mid = "M3" then .failure else .success)
      ["M1", "M2", "M3", "M4", "M5"]).2 = ["M3"] := by
  have h := batch_partial_failure (fun mid => if mid = "M3" then .failure else .success)
    ["M1", "M2", "M3", "M4", "M5"] []
  refine ⟨h.1.trans (by decide), ?_⟩
  have hp := h.2.1
  have : (["M1", "M2", "M3", "M4", "M5"].filter
      (fun mid => decide ((if mid = "M3" then JobOutcome.failure else .success) ≠
        .success))) = ["M3"] := by decide
  rw [this] at hp
  exact List.perm_singleton.mp hp

theorem foldIncr_total (steps : List (ParticipantRow × List String)) :
    ∀ s, (foldIncr s steps).total_matches = s.total_matches + steps.length := by
  induction steps with
  | nil => intro s; simp [foldIncr]
  | cons st t ih =>
      intro s
      show (foldIncr (incrementStats s st.1 st.2) t).total_matches = _
      rw [ih]
      simp
      omega

theorem foldIncr_wins (steps : List (ParticipantRow × List String)) :
    ∀ s, (foldIncr s steps).wins =
      s.wins + ((steps.map Prod.fst).countP (fun p => p.win) : Int) := by
  induction steps with
  | nil => intro s; simp [foldIncr]
  | cons st t ih =>
      intro s
      show (foldIncr (incrementStats s st.1 st.2) t).wins = _
      rw [ih]
      by_cases hw : st.1.win <;> simp [hw, List.countP_cons] <;> omega

theorem foldIncr_losses (steps : List (ParticipantRow × List String)) :
    ∀ s, (foldIncr s steps).losses =
      s.losses + ((steps.map Prod.fst).countP (fun p => !p.win) : Int) := by
  induction steps with
  | nil => intro s; simp [foldIncr]
  | cons st t ih =>
      intro s
      show (foldIncr (incrementStats s st.1 st.2) t).losses = _
      rw [ih]
      by_cases hw : st.1.win <;> simp [hw, List.countP_cons] <;> omega

theorem foldIncr_kills (steps : List (ParticipantRow × List String)) :
    ∀ s, (foldIncr s steps).total_kills =
      s.total_kills + ((steps.map Prod.fst).map (fun p => p.kills)).sum := by
  induction steps with
  | nil => intro s; simp [foldIncr]
  | cons st t ih =>
      intro s
      show (foldIncr (incrementStats s st.1 st.2) t).total_kills = _
      rw [ih]
      simp
      omega

theorem foldIncr_deaths (steps : List (ParticipantRow × List String)) :
    ∀ s, (foldIncr s steps).total_deaths =
      s.total_deaths + ((steps.map Prod.fst).map (fun p => p.deaths)).sum := by
  induction steps with
  | nil => intro s; simp [foldIncr]
  | cons st t ih =>
      intro s
      show (foldIncr (incrementStats s st.1 st.2) t).total_deaths = _
      rw [ih]
      simp
      omega

theorem foldIncr_assists (steps : List (ParticipantRow × List String)) :
    ∀ s, (foldIncr s steps).total_assists =
      s.total_assists + ((steps.map Prod.fst).map (fun p => p.assists)).sum := by
  induction steps with
  | nil => intro s; simp [foldIncr]
  | cons st t ih =>
      intro s
      show (foldIncr (incrementStats s st.1 st.2) t).total_assists = _
      rw [ih]
      simp
      omega

theorem foldIncr_gold (steps : List (ParticipantRow × List String)) :
    ∀ s, (foldIncr s steps).total_gold_earned =
      s.total_gold_earned + ((steps.map Prod.fst).map (fun p => p.gold_earned)).sum := by
  induction steps with
  | nil => intro s; simp [foldIncr]
  | cons st t ih =>
      intro s
      show (foldIncr (incrementStats s st.1 st.2) t).total_gold_earned = _
      rw [ih]
      simp
      omega

theorem foldIncr_minions (steps : List (ParticipantRow × List String)) :
    ∀ s, (foldIncr s steps).total_minions_killed =
      s.total_minions_killed + ((steps.map Prod.fst).map (fun p => p.total_minions_killed)).sum := by
  induction steps with
  | nil => intro s; simp [foldIncr]
  | cons st t ih =>
      intro s
      show (foldIncr (incrementStats s st.1 st.2) t).total_minions_killed = _
      rw [ih]
      simp
      omega

theorem foldIncr_neutral (steps : List (ParticipantRow × List String)) :
    ∀ s, (foldIncr s steps).total_neutral_minions_killed =
      s.total_neutral_minions_killed +
        ((steps.map Prod.fst).map (fun p => p.neutral_minions_killed)).sum := by
  induction steps with
  | nil => intro s; simp [foldIncr]
  | cons st t ih =>
      intro s
      show (foldIncr (incrementStats s st.1 st.2) t).total_neutral_minions_killed = _
      rw [ih]
      simp
      omega

theorem foldIncr_damage (steps : List (ParticipantRow × List String)) :
    ∀ s, (foldIncr s steps).total_damage_to_champions =
      s.total_damage_to_champions +
        ((steps.map Prod.fst).map (fun p => p.damage_to_champions)).sum := by
  induction steps with
  | nil => intro s; simp [foldIncr]
  | cons st t ih =>
      intro s
      show (foldIncr (incrementStats s st.1 st.2) t).total_damage_to_champions = _
      rw [ih]
      simp
      omega

theorem incrementStats_eq_calc (s : Stats) (p : ParticipantRow) (ec : List String) :
    ∃ t : Stats, incrementStats s p ec = t.calculate_derived_stats := by
  rcases hm : pyStrFilter p.champion_name with _ | c
  · exact ⟨_, by unfold incrementStats; rw [hm]⟩
  · exact ⟨_, by unfold incrementStats; rw [hm]⟩

/-- After either derived-stats routine runs on a state with a positive match
count, every ratio field of the result equals the corresponding formula over
the result's own counters. -/
theorem calcDerived_self_formulas (t : Stats) (h : 0 < t.total_matches) :
    t.calculate_derived_stats.win_rate =
      (t.calculate_derived_stats.wins : Rat) /
        (t.calculate_derived_stats.total_matches : Rat) * 100 ∧
    t.calculate_derived_stats.average_kills =
      (t.calculate_derived_stats.total_kills : Rat) /
        (t.calculate_derived_stats.total_matches : Rat) ∧
    t.calculate_derived_stats.average_deaths =
      (t.calculate_derived_stats.total_deaths : Rat) /
        (t.calculate_derived_stats.total_matches : Rat) ∧
    t.calculate_derived_stats.average_assists =
      (t.calculate_derived_stats.total_assists : Rat) /
        (t.calculate_derived_stats.total_matches : Rat) ∧
    t.calculate_derived_stats.average_gold_per_match =
      (t.calculate_derived_stats.total_gold_earned : Rat) /
        (t.calculate_derived_stats.total_matches : Rat) ∧
    t.calculate_derived_stats.average_cs_per_match =
      ((t.calculate_derived_stats.total_minions_killed +
          t.calculate_derived_stats.total_neutral_minions_killed : Int) : Rat) /
        (t.calculate_derived_stats.total_matches : Rat) ∧
    t.calculate_derived_stats.kda =
      (if 0 < t.calculate_derived_stats.total_deaths then
        ((t.calculate_derived_stats.total_kills +
            t.calculate_derived_stats.total_assists : Int) : Rat) /
          (t.calculate_derived_stats.total_deaths : Rat)
      else ((t.calculate_derived_stats.total_kills +
          t.calculate_derived_stats.total_assists : Int) : Rat)) := by
  refine ⟨?_, ?_, ?_, ?_, ?_, ?_, ?_⟩ <;>
    simp only [calcDerived_total_matches, calcDerived_wins, calcDerived_kills,
      calcDerived_deaths, calcDerived_assists, calcDerived_gold, calcDerived_minions,
      calcDerived_neutral]
  · exact calcDerived_win_rate t h
  · exact calcDerived_average_kills t h
  · exact calcDerived_average_deaths t h
  · exact calcDerived_average_assists t h
  · exact calcDerived_average_gold t h
  · exact calcDerived_average_cs t h
  · exact calcDerived_kda t h

/-- Same self-formulas for the full recomputation output. -/
theorem calcFrom_self_formulas (ps : List ParticipantRow) (h : ps ≠ []) :
    (calculateStatsFromMatches ps).win_rate =
      ((calculateStatsFromMatches ps).wins : Rat) /
        ((calculateStatsFromMatches ps).total_matches : Rat) * 100 ∧
    (calculateStatsFromMatches ps).average_kills =
      ((calculateStatsFromMatches ps).total_kills : Rat) /
        ((calculateStatsFromMatches ps).total_matches : Rat) ∧
    (calculateStatsFromMatches ps).average_deaths =
      ((calculateStatsFromMatches ps).total_deaths : Rat) /
        ((calculateStatsFromMatches ps).total_matches : Rat) ∧
    (calculateStatsFromMatches ps).average_assists =
      ((calculateStatsFromMatches ps).total_assists : Rat) /
        ((calculateStatsFromMatches ps).total_matches : Rat) ∧
    (calculateStatsFromMatches ps).average_gold_per_match =
      ((calculateStatsFromMatches ps).total_gold_earned : Rat) /
        ((calculateStatsFromMatches ps).total_matches : Rat) ∧
    (calculateStatsFromMatches ps).average_cs_per_match =
      (((calculateStatsFromMatches ps).total_minions_killed +
          (calculateStatsFromMatches ps).total_neutral_minions_killed : Int) : Rat) /
        ((calculateStatsFromMatches ps).total_matches : Rat) ∧
    (calculateStatsFromMatches ps).kda =
      (if 0 < (calculateStatsFromMatches ps).total_deaths then
        (((calculateStatsFromMatches ps).total_kills +
            (calculateStatsFromMatches ps).total_assists : Int) : Rat) /
          ((calculateStatsFromMatches ps).total_deaths : Rat)
      else (((calculateStatsFromMatches ps).total_kills +
          (calculateStatsFromMatches ps).total_assists : Int) : Rat)) := by
  have hpos : 0 < (ps.length : Int) := by
    have : ps.length ≠ 0 := by
      intro hz
      exact h (List.length_eq_zero.mp hz)
    omega
  unfold calculateStatsFromMatches
  rw [if_neg h]
  refine ⟨?_, ?_, ?_, ?_, ?_, ?_, ?_⟩ <;>
    simp only [aggCalc_total_matches, aggCalc_wins, aggCalc_kills, aggCalc_deaths,
      aggCalc_assists, aggCalc_gold, aggCalc_minions, aggCalc_neutral]
  · exact aggCalc_win_rate _ hpos
  · exact aggCalc_average_kills _ hpos
  · exact aggCalc_average_deaths _ hpos
  · exact aggCalc_average_assists _ hpos
  · exact aggCalc_average_gold _ hpos
  · exact aggCalc_average_cs _ hpos
  · exact aggCalc_kda _ hpos

theorem calcFrom_total (ps : List ParticipantRow) (h : ps ≠ []) :
    (calculateStatsFromMatches ps).total_matches = (ps.length : Int) := by
  unfold calculateStatsFromMatches
  rw [if_neg h]
  simp

theorem calcFrom_wins (ps : List ParticipantRow) (h : ps ≠ []) :
    (calculateStatsFromMatches ps).wins =
      ((ps.filter (fun p => p.win)).length : Int) := by
  unfold calculateStatsFromMatches
  rw [if_neg h]
  simp

theorem calcFrom_losses (ps : List ParticipantRow) (h : ps ≠ []) :
    (calculateStatsFromMatches ps).losses =
      (ps.length : Int) - ((ps.filter (fun p => p.win)).length : Int) := by
  unfold calculateStatsFromMatches
  rw [if_neg h]
  simp

theorem calcFrom_kills (ps : List ParticipantRow) (h : ps ≠ []) :
    (calculateStatsFromMatches ps).total_kills = (ps.map (fun p => p.kills)).sum := by
  unfold calculateStatsFromMatches
  rw [if_neg h]
  simp

theorem calcFrom_deaths (ps : List ParticipantRow) (h : ps ≠ []) :
    (calculateStatsFromMatches ps).total_deaths = (ps.map (fun p => p.deaths)).sum := by
  unfold calculateStatsFromMatches
  rw [if_neg h]
  simp

theorem calcFrom_assists (ps : List ParticipantRow) (h : ps ≠ []) :
    (calculateStatsFromMatches ps).total_assists = (ps.map (fun p => p.assists)).sum := by
  unfold calculateStatsFromMatches
  rw [if_neg h]
  simp

theorem calcFrom_gold (ps : List ParticipantRow) (h : ps ≠ []) :
    (calculateStatsFromMatches ps).total_gold_earned =
      (ps.map (fun p => p.gold_earned)).sum := by
  unfold calculateStatsFromMatches
  rw [if_neg h]
  simp

theorem calcFrom_minions (ps : List ParticipantRow) (h : ps ≠ []) :
    (calculateStatsFromMatches ps).total_minions_killed =
      (ps.map (fun p => p.total_minions_killed)).sum := by
  unfold calculateStatsFromMatches
  rw [if_neg h]
  simp

theorem calcFrom_neutral (ps : List ParticipantRow) (h : ps ≠ []) :
    (calculateStatsFromMatches ps).total_neutral_minions_killed =
      (ps.map (fun p => p.neutral_minions_killed)).sum := by
  unfold calculateStatsFromMatches
  rw [if_neg h]
  simp

theorem calcFrom_damage (ps : List ParticipantRow) (h : ps ≠ []) :
    (calculateStatsFromMatches ps).total_damage_to_champions =
      (ps.map (fun p => p.damage_to_champions)).sum := by
  unfold calculateStatsFromMatches
  rw [if_neg h]
  simp

/-- C2: for a fixed set of committed rows, applying `increment_stats` once
per row in any serial order — with arbitrary results for each step's
champion-history query — starting from the freshly created aggregate yields
the same counters and the same derived ratios (win rate, KDA, per-match
averages), exactly, as the full recomputation
`calculate_stats_from_matches` over the same rows (the values `update_stats`
writes back wholesale). -/
theorem aggregate_equivalence (steps : List (ParticipantRow × List String))
    (ps : List ParticipantRow) (hperm : (steps.map Prod.fst).Perm ps) :
    (foldIncr emptyStats steps).total_matches =
      (calculateStatsFromMatches ps).total_matches ∧
    (foldIncr emptyStats steps).wins = (calculateStatsFromMatches ps).wins ∧
    (foldIncr emptyStats steps).losses = (calculateStatsFromMatches ps).losses ∧
    (foldIncr emptyStats steps).total_kills = (calculateStatsFromMatches ps).total_kills ∧
    (foldIncr emptyStats steps).total_deaths = (calculateStatsFromMatches ps).total_deaths ∧
    (foldIncr emptyStats steps).total_assists =
      (calculateStatsFromMatches ps).total_assists ∧
    (foldIncr emptyStats steps).total_gold_earned =
      (calculateStatsFromMatches ps).total_gold_earned ∧
    (foldIncr emptyStats steps).total_minions_killed =
      (calculateStatsFromMatches ps).total_minions_killed ∧
    (foldIncr emptyStats steps).total_neutral_minions_killed =
      (calculateStatsFromMatches ps).total_neutral_minions_killed ∧
    (foldIncr emptyStats steps).total_damage_to_champions =
      (calculateStatsFromMatches ps).total_damage_to_champions ∧
    (foldIncr emptyStats steps).win_rate = (calculateStatsFromMatches ps).win_rate ∧
    (foldIncr emptyStats steps).kda = (calculateStatsFromMatches ps).kda ∧
    (foldIncr emptyStats steps).average_kills =
      (calculateStatsFromMatches ps).average_kills ∧
    (foldIncr emptyStats steps).average_deaths =
      (calculateStatsFromMatches ps).average_deaths ∧
    (foldIncr emptyStats steps).average_assists =
      (calculateStatsFromMatches ps).average_assists ∧
    (foldIncr emptyStats steps).average_gold_per_match =
      (calculateStatsFromMatches ps).average_gold_per_match ∧
    (foldIncr emptyStats steps).average_cs_per_match =
      (calculateStatsFromMatches ps).average_cs_per_match := by
  rcases eq_or_ne ps [] with rfl | hne
  · have hsteps : steps = [] := by
      have hl := hperm.length_eq
      simp only [List.length_map, List.length_nil] at hl
      exact List.length_eq_zero.mp hl
    subst hsteps
    exact ⟨rfl, rfl, rfl, rfl, rfl, rfl, rfl, rfl, rfl, rfl, rfl, rfl, rfl, rfl,
      rfl, rfl, rfl⟩
  · have hs_ne : steps ≠ [] := by
      intro h
      subst h
      simp only [List.map_nil] at hperm
      exact hne (List.Perm.nil_eq hperm).symm
    have hlen : steps.length = ps.length := by
      have := hperm.length_eq
      simpa using this
    -- counters of the incremental run
    have hT : (foldIncr emptyStats steps).total_matches = (steps.length : Int) := by
      rw [foldIncr_total]; simp [emptyStats]
    have hW : (foldIncr emptyStats steps).wins =
        (((steps.map Prod.fst).countP (fun p => p.win) : Nat) : Int) := by
      rw [foldIncr_wins]; simp [emptyStats]
    have hL : (foldIncr emptyStats steps).losses =
        (((steps.map Prod.fst).countP (fun p => !p.win) : Nat) : Int) := by
      rw [foldIncr_losses]; simp [emptyStats]
    -- counter equalities
    have hTot : (foldIncr emptyStats steps).total_matches =
        (calculateStatsFromMatches ps).total_matches := by
      rw [hT, calcFrom_total ps hne, hlen]
    have hWins : (foldIncr emptyStats steps).wins =
        (calculateStatsFromMatches ps).wins := by
      rw [hW, calcFrom_wins ps hne, hperm.countP_eq, List.countP_eq_length_filter]
    have hLoss : (foldIncr emptyStats steps).losses =
        (calculateStatsFromMatches ps).losses := by
      rw [hL, calcFrom_losses ps hne, hperm.countP_eq]
      have hsplit := List.length_eq_countP_add_countP (p := fun p : ParticipantRow => p.win) ps
      rw [List.countP_eq_length_filter] at hsplit
      have hc : ps.countP (fun p => !p.win) =
          ps.countP (fun p => ¬p.win = true) := by
        apply List.countP_congr
        intro p _
        cases p.win <;> simp
      rw [hc]
      omega
    have hKills : (foldIncr emptyStats steps).total_kills =
        (calculateStatsFromMatches ps).total_kills := by
      rw [foldIncr_kills, calcFrom_kills ps hne, (hperm.map (fun p => p.kills)).sum_eq]
      simp [emptyStats]
    have hDeaths : (foldIncr emptyStats steps).total_deaths =
        (calculateStatsFromMatches ps).total_deaths := by
      rw [foldIncr_deaths, calcFrom_deaths ps hne, (hperm.map (fun p => p.deaths)).sum_eq]
      simp [emptyStats]
    have hAssists : (foldIncr emptyStats steps).total_assists =
        (calculateStatsFromMatches ps).total_assists := by
      rw [foldIncr_assists, calcFrom_assists ps hne,
        (hperm.map (fun p => p.assists)).sum_eq]
      simp [emptyStats]
    have hGold : (foldIncr emptyStats steps).total_gold_earned =
        (calculateStatsFromMatches ps).total_gold_earned := by
      rw [foldIncr_gold, calcFrom_gold ps hne,
        (hperm.map (fun p => p.gold_earned)).sum_eq]
      simp [emptyStats]
    have hMin : (foldIncr emptyStats steps).total_minions_killed =
        (calculateStatsFromMatches ps).total_minions_killed := by
      rw [foldIncr_minions, calcFrom_minions ps hne,
        (hperm.map (fun p => p.total_minions_killed)).sum_eq]
      simp [emptyStats]
    have hNeu : (foldIncr emptyStats steps).total_neutral_minions_killed =
        (calculateStatsFromMatches ps).total_neutral_minions_killed := by
      rw [foldIncr_neutral, calcFrom_neutral ps hne,
        (hperm.map (fun p => p.neutral_minions_killed)).sum_eq]
      simp [emptyStats]
    have hDam : (foldIncr emptyStats steps).total_damage_to_champions =
        (calculateStatsFromMatches ps).total_damage_to_champions := by
      rw [foldIncr_damage, calcFrom_damage ps hne,
        (hperm.map (fun p => p.damage_to_champions)).sum_eq]
      simp [emptyStats]
    -- the final incremental step recomputed the ratios from the counters
    have hFpos : 0 < (foldIncr emptyStats steps).total_matches := by
      rw [hT]
      have : steps.length ≠ 0 := by
        intro hz
        exact hs_ne (List.length_eq_zero.mp hz)
      omega
    obtain ⟨L, st, hsteps⟩ := (List.eq_nil_or_concat steps).resolve_left hs_ne
    have hFsplit : foldIncr emptyStats steps =
        incrementStats (foldIncr emptyStats L) st.1 st.2 := by
      rw [hsteps, List.concat_eq_append]
      unfold foldIncr
      rw [List.foldl_append]
      rfl
    obtain ⟨t, ht⟩ := incrementStats_eq_calc (foldIncr emptyStats L) st.1 st.2
    have hF : foldIncr emptyStats steps = t.calculate_derived_stats := hFsplit.trans ht
    have htpos : 0 < t.total_matches := by
      have := hFpos
      rw [hF, calcDerived_total_matches] at this
      exact this
    have hFf := calcDerived_self_formulas t htpos
    rw [← hF] at hFf
    have hGf := calcFrom_self_formulas ps hne
    refine ⟨hTot, hWins, hLoss, hKills, hDeaths, hAssists, hGold, hMin, hNeu, hDam,
      ?_, ?_, ?_, ?_, ?_, ?_, ?_⟩
    · rw [hFf.1, hGf.1, hWins, hTot]
    · rw [hFf.2.2.2.2.2.2, hGf.2.2.2.2.2.2, hKills, hDeaths, hAssists]
    · rw [hFf.2.1, hGf.2.1, hKills, hTot]
    · rw [hFf.2.2.1, hGf.2.2.1, hDeaths, hTot]
    · rw [hFf.2.2.2.1, hGf.2.2.2.1, hAssists, hTot]
    · rw [hFf.2.2.2.2.1, hGf.2.2.2.2.1, hGold, hTot]
    · rw [hFf.2.2.2.2.2.1, hGf.2.2.2.2.2.1, hMin, hNeu, hTot]

/-- Witness for C2: two concrete rows incremented in one order agree with the
full recomputation over the rows listed in the other order, on win rate and
KDA. -/
theorem aggregate_equivalence_witness :
    (foldIncr emptyStats [(samplePR "M1" "A" 5 2 7 true "Ahri", []),
        (samplePR "M2" "A" 1 6 3 false "Lux", ["Ahri"])]).win_rate =
      (calculateStatsFromMatches [samplePR "M2" "A" 1 6 3 false "Lux",
        samplePR "M1" "A" 5 2 7 true "Ahri"]).win_rate ∧
    (foldIncr emptyStats [(samplePR "M1" "A" 5 2 7 true "Ahri", []),
        (samplePR "M2" "A" 1 6 3 false "Lux", ["Ahri"])]).kda =
      (calculateStatsFromMatches [samplePR "M2" "A" 1 6 3 false "Lux",
        samplePR "M1" "A" 5 2 7 true "Ahri"]).kda := by
  have h := aggregate_equivalence
    [(samplePR "M1" "A" 5 2 7 true "Ahri", []),
     (samplePR "M2" "A" 1 6 3 false "Lux", ["Ahri"])]
    [samplePR "M2" "A" 1 6 3 false "Lux", samplePR "M1" "A" 5 2 7 true "Ahri"]
    (List.Perm.swap _ _ _)
  exact ⟨h.2.2.2.2.2.2.2.2.2.2.1, h.2.2.2.2.2.2.2.2.2.2.2.1⟩

/-- C3 (code bug): `sync_match_data_atomic` opens no transaction, so when a
mid-call step fails — here the second participant's summoner insert violates
the unique `summoner_id` constraint — the call reports failure yet the Match
row and the first RecordParticipant row stay committed, contradicting the
all-rows-or-none contract its own name and docstring state. -/
theorem atomic_processor_partial_commit :
    (syncMatchDataAtomic dbBeforeConflict "M1" "na1" "americas" "PUUID-A"
        (.ok conflictMatchData)).1.success = false ∧
    (syncMatchDataAtomic dbBeforeConflict "M1" "na1" "americas" "PUUID-A"
        (.ok conflictMatchData)).2.matchRows.map (fun m => m.match_id) = ["M1"] ∧
    (syncMatchDataAtomic dbBeforeConflict "M1" "na1" "americas" "PUUID-A"
        (.ok conflictMatchData)).2.participants.map partKey = [("M1", "PUUID-A")] ∧
    dbBeforeConflict.matchRows = [] ∧
    dbBeforeConflict.participants = [] := by
  decide

/-! Frame and stability lemmas for the record-processing pipeline, leading to
idempotence of the fresh-sync path (C4). -/

theorem upsertParticipantRow_summoners (db : DB) (row : ParticipantRow) :
    (upsertParticipantRow db row).summoners = db.summoners := by
  unfold upsertParticipantRow; split <;> rfl

theorem upsertParticipantRow_matchRows (db : DB) (row : ParticipantRow) :
    (upsertParticipantRow db row).matchRows = db.matchRows := by
  unfold upsertParticipantRow; split <;> rfl

theorem upsertParticipantRow_timelines (db : DB) (row : ParticipantRow) :
    (upsertParticipantRow db row).timelines = db.timelines := by
  unfold upsertParticipantRow; split <;> rfl

theorem upsertMatchRow_summoners (db : DB) (row : MatchRow) :
    (upsertMatchRow db row).summoners = db.summoners := by
  unfold upsertMatchRow; split <;> rfl

theorem upsertMatchRow_participants (db : DB) (row : MatchRow) :
    (upsertMatchRow db row).participants = db.participants := by
  unfold upsertMatchRow; split <;> rfl

theorem upsertMatchRow_timelines (db : DB) (row : MatchRow) :
    (upsertMatchRow db row).timelines = db.timelines := by
  unfold upsertMatchRow; split <;> rfl

theorem getOrCreate_state (db : DB) (pd : ParticipantData) (pl rt : String)
    (s : SummonerRow) (db1 : DB)
    (h : getOrCreateParticipantSummoner db pd pl rt = .ok (s, db1)) :
    db1.matchRows = db.matchRows ∧ db1.participants = db.participants ∧
    db1.timelines = db.timelines ∧
    (db1.summoners = db.summoners ∨
      (db.summoners.find? (fun x => decide (x.puuid = pd.puuid.getD "")) = none ∧
       db1.summoners = db.summoners ++ [s])) := by
  unfold getOrCreateParticipantSummoner at h
  rcases hf : db.summoners.find? (fun x => decide (x.puuid = pd.puuid.getD "")) with _ | s0
  · rw [hf] at h
    simp only at h
    split at h
    · exact absurd h (by simp)
    · simp only [Except.ok.injEq, Prod.mk.injEq] at h
      obtain ⟨hs, hdb⟩ := h
      subst hdb
      exact ⟨rfl, rfl, rfl, Or.inr ⟨hf, by rw [hs]⟩⟩
  · rw [hf] at h
    simp only [Except.ok.injEq, Prod.mk.injEq] at h
    obtain ⟨hs, hdb⟩ := h
    subst hdb
    exact ⟨rfl, rfl, rfl, Or.inl rfl⟩

theorem getOrCreate_finds (db : DB) (pd : ParticipantData) (pl rt : String)
    (s : SummonerRow) (db1 : DB)
    (h : getOrCreateParticipantSummoner db pd pl rt = .ok (s, db1)) :
    db1.summoners.find? (fun x => decide (x.puuid = pd.puuid.getD "")) = some s := by
  unfold getOrCreateParticipantSummoner at h
  rcases hf : db.summoners.find? (fun x => decide (x.puuid = pd.puuid.getD "")) with _ | s0
  · rw [hf] at h
    simp only at h
    split at h
    · exact absurd h (by simp)
    · simp only [Except.ok.injEq, Prod.mk.injEq] at h
      obtain ⟨hs, hdb⟩ := h
      subst hdb
      simp only [List.find?_append, hf, Option.none_or]
      rw [List.find?_cons]
      have hp : decide ((newSummonerRow pd pl rt).puuid = pd.puuid.getD "") = true := by
        simp [newSummonerRow]
      rw [hp, hs]
  · rw [hf] at h
    simp only [Except.ok.injEq, Prod.mk.injEq] at h
    obtain ⟨hs, hdb⟩ := h
    subst hdb
    rw [hf, hs]

theorem getOrCreate_error_iff (db : DB) (pd : ParticipantData) (pl rt : String)
    (e : String) :
    getOrCreateParticipantSummoner db pd pl rt = .error e ↔
      (db.summoners.find? (fun x => decide (x.puuid = pd.puuid.getD "")) = none ∧
       db.summoners.any (fun x =>
         decide (x.summoner_id = (newSummonerRow pd pl rt).summoner_id)) = true ∧
       e = "IntegrityError: duplicate key value violates unique constraint on summoner_id") := by
  unfold getOrCreateParticipantSummoner
  rcases hf : db.summoners.find? (fun x => decide (x.puuid = pd.puuid.getD "")) with _ | s0
  · rw [hf]
    by_cases hc : db.summoners.any (fun x =>
        decide (x.summoner_id = (newSummonerRow pd pl rt).summoner_id)) = true
    · simp [hc, eq_comm]
    · simp [hc]
  · simp [hf]

theorem getOrCreate_of_same_summoners (db dbX : DB) (pd : ParticipantData) (pl rt : String)
    (hs : dbX.summoners = db.summoners) :
    (∀ e, getOrCreateParticipantSummoner db pd pl rt = .error e →
      getOrCreateParticipantSummoner dbX pd pl rt = .error e) ∧
    (∀ s, db.summoners.find? (fun x => decide (x.puuid = pd.puuid.getD "")) = some s →
      getOrCreateParticipantSummoner dbX pd pl rt = .ok (s, dbX)) := by
  constructor
  · intro e h
    rw [getOrCreate_error_iff] at h ⊢
    rw [hs]
    exact h
  · intro s hf
    unfold getOrCreateParticipantSummoner
    rw [hs, hf]

theorem processParticipants_nil (mid pl rt : String) (db : DB) :
    processParticipants mid pl rt db [] = (.ok 0, db) := rfl

theorem processParticipants_cons (mid pl rt : String) (db : DB) (pd : ParticipantData)
    (rest : List ParticipantData) :
    processParticipants mid pl rt db (pd :: rest) =
      if pyTruthyStr pd.puuid then
        match getOrCreateParticipantSummoner db pd pl rt with
        | .error e => (.error e, db)
        | .ok (s, db1) =>
            ((processParticipants mid pl rt
                (upsertParticipantRow db1 (mkParticipantRow mid s pd)) rest).1.map
              (fun n => n + 1),
             (processParticipants mid pl rt
                (upsertParticipantRow db1 (mkParticipantRow mid s pd)) rest).2)
      else processParticipants mid pl rt db rest := by
  rfl

theorem processParticipants_frames (mid pl rt : String) :
    ∀ (pds : List ParticipantData) (db : DB),
    ((processParticipants mid pl rt db pds).2).matchRows = db.matchRows ∧
    ((processParticipants mid pl rt db pds).2).timelines = db.timelines
  | [], _ => ⟨rfl, rfl⟩
  | pd :: rest, db => by
      rw [processParticipants_cons]
      by_cases ht : pyTruthyStr pd.puuid
      · rw [if_pos ht]
        rcases hg : getOrCreateParticipantSummoner db pd pl rt with e | ⟨s, db1⟩
        · exact ⟨rfl, rfl⟩
        · obtain ⟨hm, _, htl, _⟩ := getOrCreate_state db pd pl rt s db1 hg
          have ih := processParticipants_frames mid pl rt rest
            (upsertParticipantRow db1 (mkParticipantRow mid s pd))
          constructor
          · rw [ih.1, upsertParticipantRow_matchRows, hm]
          · rw [ih.2, upsertParticipantRow_timelines, htl]
      · rw [if_neg ht]
        exact processParticipants_frames mid pl rt rest db

theorem processParticipants_find_summoner (mid pl rt : String) (q : SummonerRow → Bool)
    (s : SummonerRow) :
    ∀ (pds : List ParticipantData) (db : DB), db.summoners.find? q = some s →
      ((processParticipants mid pl rt db pds).2).summoners.find? q = some s
  | [], _ => fun h => h
  | pd :: rest, db => fun h => by
      rw [processParticipants_cons]
      by_cases ht : pyTruthyStr pd.puuid
      · rw [if_pos ht]
        rcases hg : getOrCreateParticipantSummoner db pd pl rt with e | ⟨s1, db1⟩
        · exact h
        · obtain ⟨_, _, _, hsum⟩ := getOrCreate_state db pd pl rt s1 db1 hg
          have hdb1 : db1.summoners.find? q = some s := by
            rcases hsum with he | ⟨_, he⟩
            · rw [he]; exact h
            · rw [he, List.find?_append, h]; rfl
          have hdb2 : (upsertParticipantRow db1
              (mkParticipantRow mid s1 pd)).summoners.find? q = some s := by
            rw [upsertParticipantRow_summoners]; exact hdb1
          exact processParticipants_find_summoner mid pl rt q s rest _ hdb2
      · rw [if_neg ht]
        exact processParticipants_find_summoner mid pl rt q s rest db h

theorem upsertParticipantRow_pins (db : DB) (row : ParticipantRow) :
    pinnedPart (upsertParticipantRow db row).participants row := by
  unfold upsertParticipantRow pinnedPart
  split
  case isTrue hany =>
    rw [List.any_eq_true] at hany
    obtain ⟨q0, hq0, hkey⟩ := hany
    simp only [decide_eq_true_eq] at hkey
    constructor
    · exact ⟨row, List.mem_map.mpr ⟨q0, hq0, by rw [if_pos hkey]⟩, rfl⟩
    · intro q hq hk
      rw [List.mem_map] at hq
      obtain ⟨q1, hq1, rfl⟩ := hq
      by_cases h1 : partKey q1 = partKey row
      · rw [if_pos h1]
      · rw [if_neg h1] at hk ⊢
        exact absurd hk h1
  case isFalse hany =>
    constructor
    · exact ⟨row, List.mem_append_right _ (List.mem_singleton.mpr rfl), rfl⟩
    · intro q hq hk
      rcases List.mem_append.mp hq with h1 | h1
      · exfalso
        exact hany (List.any_eq_true.mpr ⟨q, h1, by simp [hk]⟩)
      · exact List.mem_singleton.mp h1

theorem upsertParticipantRow_of_pinned (db : DB) (row : ParticipantRow)
    (h : pinnedPart db.participants row) : upsertParticipantRow db row = db := by
  unfold upsertParticipantRow
  obtain ⟨⟨q0, hq0, hkey⟩, hall⟩ := h
  rw [if_pos (List.any_eq_true.mpr ⟨q0, hq0, by simp [hkey]⟩)]
  have hmap : db.participants.map
      (fun q => if partKey q = partKey row then row else q) = db.participants := by
    rw [List.map_congr_left (g := id) fun q hq => ?_, List.map_id]
    by_cases hc : partKey q = partKey row
    · rw [if_pos hc, id_eq, hall q hq hc]
    · rw [if_neg hc, id_eq]
  rw [hmap]

theorem pinnedPart_preserved_upsert (db : DB) (row row2 : ParticipantRow)
    (hk : partKey row2 ≠ partKey row) (h : pinnedPart db.participants row) :
    pinnedPart (upsertParticipantRow db row2).participants row := by
  unfold upsertParticipantRow
  obtain ⟨⟨q0, hq0, hkey⟩, hall⟩ := h
  split
  · constructor
    · refine ⟨q0, List.mem_map.mpr ⟨q0, hq0, ?_⟩, hkey⟩
      rw [if_neg]
      intro hc
      exact hk (by rw [← hc, hkey])
    · intro q hq hkq
      rw [List.mem_map] at hq
      obtain ⟨q1, hq1, rfl⟩ := hq
      by_cases hc : partKey q1 = partKey row2
      · rw [if_pos hc] at hkq ⊢
        exact absurd hkq hk
      · rw [if_neg hc] at hkq ⊢
        exact hall q1 hq1 hkq
  · constructor
    · exact ⟨q0, List.mem_append_left _ hq0, hkey⟩
    · intro q hq hkq
      rcases List.mem_append.mp hq with h1 | h1
      · exact hall q h1 hkq
      · rw [List.mem_singleton] at h1
        subst h1
        exact absurd hkq hk

theorem pinnedPart_preserved_process (mid pl rt : String) (row : ParticipantRow) :
    ∀ (pds : List ParticipantData) (db : DB),
    (∀ pd ∈ pds, pyTruthyStr pd.puuid = true → (mid, pd.puuid.getD "") ≠ partKey row) →
    pinnedPart db.participants row →
    pinnedPart ((processParticipants mid pl rt db pds).2).participants row
  | [], _ => fun _ h => h
  | pd :: rest, db => fun hk h => by
      rw [processParticipants_cons]
      by_cases ht : pyTruthyStr pd.puuid
      · rw [if_pos ht]
        rcases hg : getOrCreateParticipantSummoner db pd pl rt with e | ⟨s, db1⟩
        · exact h
        · obtain ⟨_, hp, _, _⟩ := getOrCreate_state db pd pl rt s db1 hg
          have h1 : pinnedPart db1.participants row := by rw [hp]; exact h
          have hkey : partKey (mkParticipantRow mid s pd) ≠ partKey row :=
            hk pd (List.mem_cons_self pd rest) ht
          have h2 := pinnedPart_preserved_upsert db1 row (mkParticipantRow mid s pd) hkey h1
          exact pinnedPart_preserved_process mid pl rt row rest _
            (fun pd' hpd' => hk pd' (List.mem_cons_of_mem _ hpd')) h2
      · rw [if_neg ht]
        exact pinnedPart_preserved_process mid pl rt row rest db
          (fun pd' hpd' => hk pd' (List.mem_cons_of_mem _ hpd')) h

theorem upsertMatchRow_pins (db : DB) (row : MatchRow) :
    pinnedMatch (upsertMatchRow db row).matchRows row := by
  unfold upsertMatchRow pinnedMatch
  split
  case isTrue hany =>
    rw [List.any_eq_true] at hany
    obtain ⟨m0, hm0, hkey⟩ := hany
    simp only [decide_eq_true_eq] at hkey
    constructor
    · exact ⟨row, List.mem_map.mpr ⟨m0, hm0, by rw [if_pos hkey]⟩, rfl⟩
    · intro m hm hk
      rw [List.mem_map] at hm
      obtain ⟨m1, hm1, rfl⟩ := hm
      by_cases h1 : m1.match_id = row.match_id
      · rw [if_pos h1]
      · rw [if_neg h1] at hk ⊢
        exact absurd hk h1
  case isFalse hany =>
    constructor
    · exact ⟨row, List.mem_append_right _ (List.mem_singleton.mpr rfl), rfl⟩
    · intro m hm hk
      rcases List.mem_append.mp hm with h1 | h1
      · exfalso
        exact hany (List.any_eq_true.mpr ⟨m, h1, by simp [hk]⟩)
      · exact List.mem_singleton.mp h1

theorem upsertMatchRow_of_pinned (db : DB) (row : MatchRow)
    (h : pinnedMatch db.matchRows row) : upsertMatchRow db row = db := by
  unfold upsertMatchRow
  obtain ⟨⟨m0, hm0, hkey⟩, hall⟩ := h
  rw [if_pos (List.any_eq_true.mpr ⟨m0, hm0, by simp [hkey]⟩)]
  have hmap : db.matchRows.map
      (fun m => if m.match_id = row.match_id then row else m) = db.matchRows := by
    rw [List.map_congr_left (g := id) fun m hm => ?_, List.map_id]
    by_cases hc : m.match_id = row.match_id
    · rw [if_pos hc, id_eq, hall m hm hc]
    · rw [if_neg hc, id_eq]
  rw [hmap]

/-- Replaying the participant loop over the state it produced (or any state
with the same summoner and participant tables) re-takes every branch and
rewrites every row with its existing value: the result is unchanged.
Requires the fetched body to list each truthy participant puuid once. -/
theorem processParticipants_replay (mid pl rt : String) :
    ∀ (pds : List ParticipantData) (db dbX : DB),
    ((pds.filter (fun pd => pyTruthyStr pd.puuid)).map
      (fun pd => pd.puuid.getD "")).Nodup →
    dbX.summoners = ((processParticipants mid pl rt db pds).2).summoners →
    dbX.participants = ((processParticipants mid pl rt db pds).2).participants →
    processParticipants mid pl rt dbX pds =
      ((processParticipants mid pl rt db pds).1, dbX)
  | [], db, dbX => fun _ _ _ => by
      rw [processParticipants_nil, processParticipants_nil]
  | pd :: rest, db, dbX => fun hnd hs hp => by
      by_cases ht : pyTruthyStr pd.puuid
      · rcases hg : getOrCreateParticipantSummoner db pd pl rt with e | ⟨s, db1⟩
        · have hout : processParticipants mid pl rt db (pd :: rest) = (.error e, db) := by
            rw [processParticipants_cons, if_pos ht, hg]
          rw [hout] at hs hp
          have he := (getOrCreate_of_same_summoners db dbX pd pl rt hs).1 e hg
          rw [processParticipants_cons, if_pos ht, he, hout]
        · have hout1 : (processParticipants mid pl rt db (pd :: rest)).1 =
              (processParticipants mid pl rt
                (upsertParticipantRow db1 (mkParticipantRow mid s pd)) rest).1.map
                  (fun n => n + 1) := by
            rw [processParticipants_cons, if_pos ht, hg]
          have hout2 : (processParticipants mid pl rt db (pd :: rest)).2 =
              (processParticipants mid pl rt
                (upsertParticipantRow db1 (mkParticipantRow mid s pd)) rest).2 := by
            rw [processParticipants_cons, if_pos ht, hg]
          rw [hout2] at hs hp
          have hfind1 := getOrCreate_finds db pd pl rt s db1 hg
          have hfind2 : (upsertParticipantRow db1
              (mkParticipantRow mid s pd)).summoners.find?
              (fun x => decide (x.puuid = pd.puuid.getD "")) = some s := by
            rw [upsertParticipantRow_summoners]
            exact hfind1
          have hfind3 := processParticipants_find_summoner mid pl rt
            (fun x => decide (x.puuid = pd.puuid.getD "")) s rest _ hfind2
          have hgX : getOrCreateParticipantSummoner dbX pd pl rt = .ok (s, dbX) :=
            (getOrCreate_of_same_summoners _ dbX pd pl rt hs).2 s hfind3
          have hfc : (pd :: rest).filter (fun x => pyTruthyStr x.puuid) =
              pd :: rest.filter (fun x => pyTruthyStr x.puuid) := by
            rw [List.filter_cons, if_pos ht]
          rw [hfc, List.map_cons] at hnd
          have hnotin := (List.nodup_cons.mp hnd).1
          have hndrest := (List.nodup_cons.mp hnd).2
          have hkfresh : ∀ pd' ∈ rest, pyTruthyStr pd'.puuid = true →
              (mid, pd'.puuid.getD "") ≠ partKey (mkParticipantRow mid s pd) := by
            intro pd' hpd' ht' hcontra
            have hv : pd'.puuid.getD "" = pd.puuid.getD "" := congrArg Prod.snd hcontra
            apply hnotin
            rw [← hv]
            exact List.mem_map.mpr ⟨pd', List.mem_filter.mpr ⟨hpd', ht'⟩, rfl⟩
          have hpin0 := upsertParticipantRow_pins db1 (mkParticipantRow mid s pd)
          have hpin := pinnedPart_preserved_process mid pl rt
            (mkParticipantRow mid s pd) rest _ hkfresh hpin0
          have hpinX : pinnedPart dbX.participants (mkParticipantRow mid s pd) := by
            rw [hp]
            exact hpin
          rw [processParticipants_cons, if_pos ht, hgX]
          simp only
          rw [upsertParticipantRow_of_pinned dbX _ hpinX]
          rw [processParticipants_replay mid pl rt rest
            (upsertParticipantRow db1 (mkParticipantRow mid s pd)) dbX hndrest hs hp]
          rw [hout1]
      · have hout : processParticipants mid pl rt db (pd :: rest) =
            processParticipants mid pl rt db rest := by
          rw [processParticipants_cons, if_neg ht]
        rw [hout] at hs hp
        have hndrest : ((rest.filter (fun x => pyTruthyStr x.puuid)).map
            (fun x => x.puuid.getD "")).Nodup := by
          have hfc : (pd :: rest).filter (fun x => pyTruthyStr x.puuid) =
              rest.filter (fun x => pyTruthyStr x.puuid) := by
            rw [List.filter_cons, if_neg ht]
          rw [hfc] at hnd
          exact hnd
        rw [processParticipants_cons, if_neg ht, hout]
        exact processParticipants_replay mid pl rt rest db dbX hndrest hs hp

theorem syncMatchDataAtomic_state (db : DB) (mid pl rt puuid : String)
    (data : MatchData) :
    (syncMatchDataAtomic db mid pl rt puuid (.ok data)).2 =
      (processParticipants mid pl rt
        (upsertMatchRow db (mkMatchRow mid data pl rt)) data.participants).2 := by
  rcases hpp : processParticipants mid pl rt
      (upsertMatchRow db (mkMatchRow mid data pl rt)) data.participants with ⟨r, dbA⟩
  unfold syncMatchDataAtomic
  simp only [hpp]
  rcases r with e | n <;> rfl

theorem syncMatchDataAtomic_timelines (db : DB) (mid pl rt puuid : String)
    (fetch : Except String MatchData) :
    ((syncMatchDataAtomic db mid pl rt puuid fetch).2).timelines = db.timelines := by
  rcases fetch with e | data
  · rfl
  · rw [syncMatchDataAtomic_state]
    rw [(processParticipants_frames mid pl rt data.participants _).2,
      upsertMatchRow_timelines]

theorem syncMatchDataAtomic_matchRows (db : DB) (mid pl rt puuid : String)
    (data : MatchData) :
    ((syncMatchDataAtomic db mid pl rt puuid (.ok data)).2).matchRows =
      (upsertMatchRow db (mkMatchRow mid data pl rt)).matchRows := by
  rw [syncMatchDataAtomic_state]
  exact (processParticipants_frames mid pl rt data.participants _).1

/-- Re-running `sync_match_data_atomic` against any store whose summoner,
match and participant tables equal those it just produced returns the same
result and leaves that store unchanged. -/
theorem syncMatchDataAtomic_replay (db dbX : DB) (mid pl rt puuid : String)
    (fetch : Except String MatchData)
    (hnd : ∀ data, fetch = .ok data →
      ((data.participants.filter (fun pd => pyTruthyStr pd.puuid)).map
        (fun pd => pd.puuid.getD "")).Nodup)
    (hs : dbX.summoners = ((syncMatchDataAtomic db mid pl rt puuid fetch).2).summoners)
    (hm : dbX.matchRows = ((syncMatchDataAtomic db mid pl rt puuid fetch).2).matchRows)
    (hp : dbX.participants =
      ((syncMatchDataAtomic db mid pl rt puuid fetch).2).participants) :
    syncMatchDataAtomic dbX mid pl rt puuid fetch =
      ((syncMatchDataAtomic db mid pl rt puuid fetch).1, dbX) := by
  rcases fetch with e | data
  · rfl
  · have hnd' := hnd data rfl
    rw [syncMatchDataAtomic_state] at hs hp
    rw [syncMatchDataAtomic_matchRows] at hm
    have hpinm : pinnedMatch dbX.matchRows (mkMatchRow mid data pl rt) := by
      rw [hm]
      exact upsertMatchRow_pins db (mkMatchRow mid data pl rt)
    have hupX : upsertMatchRow dbX (mkMatchRow mid data pl rt) = dbX :=
      upsertMatchRow_of_pinned _ _ hpinm
    have hrep := processParticipants_replay mid pl rt data.participants
      (upsertMatchRow db (mkMatchRow mid data pl rt)) dbX hnd' hs hp
    rcases hpp : processParticipants mid pl rt
        (upsertMatchRow db (mkMatchRow mid data pl rt)) data.participants with ⟨r, dbA⟩
    rw [hpp] at hrep
    unfold syncMatchDataAtomic
    simp only [hupX, hrep, hpp]
    rcases r with e | n <;> rfl

theorem syncMatchTimelineAtomic_frames (db : DB) (mid pl rt : String)
    (ftl : Except String TimelineData) :
    ((syncMatchTimelineAtomic db mid pl rt ftl).2.1).summoners = db.summoners ∧
    ((syncMatchTimelineAtomic db mid pl rt ftl).2.1).matchRows = db.matchRows ∧
    ((syncMatchTimelineAtomic db mid pl rt ftl).2.1).participants = db.participants := by
  unfold syncMatchTimelineAtomic
  rcases hf : db.matchRows.find? (fun m => decide (m.match_id = mid)) with _ | m
  · simp only [hf]
    exact ⟨by trivial, by trivial, by trivial⟩
  · simp only [hf]
    by_cases he : timelineAlreadyExists db m
    · simp only [he, if_true]
      exact ⟨by trivial, by trivial, by trivial⟩
    · simp only [he, if_false, Bool.false_eq_true]
      rcases ftl with e | tld
      · exact ⟨by trivial, by trivial, by trivial⟩
      · exact ⟨by trivial, by trivial, by trivial⟩

/-- Re-running the timeline task on its own output leaves the store
unchanged: either nothing was created, or the created sub-record makes the
existence check fire. -/
theorem syncMatchTimelineAtomic_replay (db : DB) (mid pl rt : String)
    (ftl : Except String TimelineData) :
    (syncMatchTimelineAtomic ((syncMatchTimelineAtomic db mid pl rt ftl).2.1)
        mid pl rt ftl).2.1 =
      (syncMatchTimelineAtomic db mid pl rt ftl).2.1 := by
  unfold syncMatchTimelineAtomic
  rcases hf : db.matchRows.find? (fun m => decide (m.match_id = mid)) with _ | m
  · simp only [hf]
  · simp only [hf]
    by_cases he : timelineAlreadyExists db m
    · simp only [he, if_true]
      simp only [hf, he, if_true]
    · simp only [he, if_false, Bool.false_eq_true]
      rcases ftl with e | tld
      · simp only [hf, he, if_false, Bool.false_eq_true]
      · -- created: the new store has the timeline appended, matchRows unchanged
        simp only [hf]
        have hex : timelineAlreadyExists
            { db with timelines := db.timelines ++ [mkTimelineRow m tld] } m = true := by
          unfold timelineAlreadyExists
          rw [List.any_eq_true]
          exact ⟨mkTimelineRow m tld, by simp [mkTimelineRow]⟩
        simp only [hex, if_true]

/-! Key-uniqueness preservation: the upserts never duplicate a natural key. -/

theorem upsertMatchRow_nodup (db : DB) (row : MatchRow)
    (h : (db.matchRows.map (fun m => m.match_id)).Nodup) :
    ((upsertMatchRow db row).matchRows.map (fun m => m.match_id)).Nodup := by
  unfold upsertMatchRow
  split
  case isTrue hany =>
    have hkeys : (db.matchRows.map
        (fun m => if m.match_id = row.match_id then row else m)).map
        (fun m => m.match_id) = db.matchRows.map (fun m => m.match_id) := by
      rw [List.map_map]
      apply List.map_congr_left
      intro m _
      by_cases hc : m.match_id = row.match_id
      · simp [hc]
      · simp [hc]
    simpa [hkeys] using h
  case isFalse hany =>
    simp only [List.map_append, List.map_cons, List.map_nil]
    rw [List.nodup_append]
    refine ⟨h, List.nodup_singleton _, ?_⟩
    intro a ha hb
    simp only [List.mem_singleton] at hb
    subst hb
    rw [List.mem_map] at ha
    obtain ⟨m, hm, hid⟩ := ha
    exact hany (List.any_eq_true.mpr ⟨m, hm, by simp [hid]⟩)

theorem upsertParticipantRow_nodup (db : DB) (row : ParticipantRow)
    (h : (db.participants.map partKey).Nodup) :
    ((upsertParticipantRow db row).participants.map partKey).Nodup := by
  unfold upsertParticipantRow
  split
  case isTrue hany =>
    have hkeys : (db.participants.map
        (fun q => if partKey q = partKey row then row else q)).map partKey =
        db.participants.map partKey := by
      rw [List.map_map]
      apply List.map_congr_left
      intro q _
      by_cases hc : partKey q = partKey row
      · simp [Function.comp_apply, hc]
      · simp [Function.comp_apply, hc]
    simpa [hkeys] using h
  case isFalse hany =>
    simp only [List.map_append, List.map_cons, List.map_nil]
    rw [List.nodup_append]
    refine ⟨h, List.nodup_singleton _, ?_⟩
    intro a ha hb
    simp only [List.mem_singleton] at hb
    subst hb
    rw [List.mem_map] at ha
    obtain ⟨q, hq, hid⟩ := ha
    exact hany (List.any_eq_true.mpr ⟨q, hq, by simp [hid]⟩)

theorem processParticipants_part_nodup (mid pl rt : String) :
    ∀ (pds : List ParticipantData) (db : DB),
    (db.participants.map partKey).Nodup →
    (((processParticipants mid pl rt db pds).2).participants.map partKey).Nodup
  | [], _ => fun h => h
  | pd :: rest, db => fun h => by
      rw [processParticipants_cons]
      by_cases ht : pyTruthyStr pd.puuid
      · rw [if_pos ht]
        rcases hg : getOrCreateParticipantSummoner db pd pl rt with e | ⟨s, db1⟩
        · exact h
        · obtain ⟨_, hp, _, _⟩ := getOrCreate_state db pd pl rt s db1 hg
          have h1 : (db1.participants.map partKey).Nodup := by
            rw [hp]
            exact h
          exact processParticipants_part_nodup mid pl rt rest _
            (upsertParticipantRow_nodup db1 _ h1)
      · rw [if_neg ht]
        exact processParticipants_part_nodup mid pl rt rest db h

theorem syncMatch_nodup_match (db : DB) (mid pl rt puuid : String)
    (fetch : Except String MatchData)
    (h : (db.matchRows.map (fun m => m.match_id)).Nodup) :
    (((syncMatchDataAtomic db mid pl rt puuid fetch).2).matchRows.map
      (fun m => m.match_id)).Nodup := by
  rcases fetch with e | data
  · exact h
  · rw [syncMatchDataAtomic_matchRows]
    exact upsertMatchRow_nodup db _ h

theorem syncMatch_nodup_part (db : DB) (mid pl rt puuid : String)
    (fetch : Except String MatchData)
    (h : (db.participants.map partKey).Nodup) :
    (((syncMatchDataAtomic db mid pl rt puuid fetch).2).participants.map partKey).Nodup := by
  rcases fetch with e | data
  · exact h
  · rw [syncMatchDataAtomic_state]
    apply processParticipants_part_nodup
    rw [upsertMatchRow_participants]
    exact h

theorem syncMatchTimelineAtomic_tl_nodup (db : DB) (mid pl rt : String)
    (ftl : Except String TimelineData)
    (h : (db.timelines.map (fun t => t.match_id)).Nodup) :
    (((syncMatchTimelineAtomic db mid pl rt ftl).2.1).timelines.map
      (fun t => t.match_id)).Nodup := by
  unfold syncMatchTimelineAtomic
  rcases hf : db.matchRows.find? (fun m => decide (m.match_id = mid)) with _ | m
  · simp only [hf]
    exact h
  · simp only [hf]
    by_cases he : timelineAlreadyExists db m
    · simp only [he, if_true]
      exact h
    · simp only [he, if_false, Bool.false_eq_true]
      rcases ftl with e | tld
      · exact h
      · simp only [List.map_append, List.map_cons, List.map_nil]
        rw [List.nodup_append]
        refine ⟨h, List.nodup_singleton _, ?_⟩
        intro a ha hb
        simp only [List.mem_singleton] at hb
        subst hb
        rw [List.mem_map] at ha
        obtain ⟨t, htl, hid⟩ := ha
        unfold timelineAlreadyExists at he
        exact he (List.any_eq_true.mpr ⟨t, htl, by simp [mkTimelineRow] at hid ⊢; exact hid⟩)

theorem runFresh_eq (db : DB) (mid pl rt puuid : String)
    (fetch : Except String MatchData) (ftl : Except String TimelineData) :
    runFreshMatchSync db mid pl rt puuid fetch ftl =
      if (syncMatchDataAtomic db mid pl rt puuid fetch).1.timeline_synced then
        (syncMatchTimelineAtomic (syncMatchDataAtomic db mid pl rt puuid fetch).2
          mid pl rt ftl).2.1
      else (syncMatchDataAtomic db mid pl rt puuid fetch).2 := rfl

theorem runFresh_nodups (db : DB) (mid pl rt puuid : String)
    (fetch : Except String MatchData) (ftl : Except String TimelineData)
    (hwm : (db.matchRows.map (fun m => m.match_id)).Nodup)
    (hwp : (db.participants.map partKey).Nodup)
    (hwt : (db.timelines.map (fun t => t.match_id)).Nodup) :
    ((runFreshMatchSync db mid pl rt puuid fetch ftl).matchRows.map
      (fun m => m.match_id)).Nodup ∧
    ((runFreshMatchSync db mid pl rt puuid fetch ftl).participants.map partKey).Nodup ∧
    ((runFreshMatchSync db mid pl rt puuid fetch ftl).timelines.map
      (fun t => t.match_id)).Nodup := by
  rw [runFresh_eq]
  have hm := syncMatch_nodup_match db mid pl rt puuid fetch hwm
  have hp := syncMatch_nodup_part db mid pl rt puuid fetch hwp
  have htl : (((syncMatchDataAtomic db mid pl rt puuid fetch).2).timelines.map
      (fun t => t.match_id)).Nodup := by
    rw [syncMatchDataAtomic_timelines]
    exact hwt
  by_cases hflag : (syncMatchDataAtomic db mid pl rt puuid fetch).1.timeline_synced
  · rw [if_pos hflag]
    have hfr := syncMatchTimelineAtomic_frames
      (syncMatchDataAtomic db mid pl rt puuid fetch).2 mid pl rt ftl
    refine ⟨?_, ?_, ?_⟩
    · rw [hfr.2.1]
      exact hm
    · rw [hfr.2.2]
      exact hp
    · exact syncMatchTimelineAtomic_tl_nodup _ mid pl rt ftl htl
  · rw [if_neg hflag]
    exact ⟨hm, hp, htl⟩

/-- C4: with an unchanged remote data set (each truthy participant puuid
listed once) and a store with unique natural keys, re-invoking the fresh-sync
record-processing path (match sync plus the enqueued timeline sync) is a
no-op: the second run leaves every table exactly as the first run left it, so
row counts are identical, no Record / RecordParticipant / SubRecord key is
duplicated, and a full recomputation over the participant rows — for any row
selection — is unchanged. -/
theorem fresh_sync_idempotent (db : DB) (mid pl rt puuid : String)
    (fetch : Except String MatchData) (ftl : Except String TimelineData)
    (hnd : ∀ data, fetch = .ok data →
      ((data.participants.filter (fun pd => pyTruthyStr pd.puuid)).map
        (fun pd => pd.puuid.getD "")).Nodup)
    (hwm : (db.matchRows.map (fun m => m.match_id)).Nodup)
    (hwp : (db.participants.map partKey).Nodup)
    (hwt : (db.timelines.map (fun t => t.match_id)).Nodup) :
    runFreshMatchSync (runFreshMatchSync db mid pl rt puuid fetch ftl)
        mid pl rt puuid fetch ftl =
      runFreshMatchSync db mid pl rt puuid fetch ftl ∧
    ((runFreshMatchSync db mid pl rt puuid fetch ftl).matchRows.map
      (fun m => m.match_id)).Nodup ∧
    ((runFreshMatchSync db mid pl rt puuid fetch ftl).participants.map partKey).Nodup ∧
    ((runFreshMatchSync db mid pl rt puuid fetch ftl).timelines.map
      (fun t => t.match_id)).Nodup ∧
    (∀ q : ParticipantRow → Bool,
      calculateStatsFromMatches
        ((runFreshMatchSync (runFreshMatchSync db mid pl rt puuid fetch ftl)
          mid pl rt puuid fetch ftl).participants.filter q) =
      calculateStatsFromMatches
        ((runFreshMatchSync db mid pl rt puuid fetch ftl).participants.filter q)) := by
  have hnod := runFresh_nodups db mid pl rt puuid fetch ftl hwm hwp hwt
  have hmain : runFreshMatchSync (runFreshMatchSync db mid pl rt puuid fetch ftl)
      mid pl rt puuid fetch ftl = runFreshMatchSync db mid pl rt puuid fetch ftl := by
    by_cases hflag : (syncMatchDataAtomic db mid pl rt puuid fetch).1.timeline_synced
    · have hd1 : runFreshMatchSync db mid pl rt puuid fetch ftl =
          (syncMatchTimelineAtomic (syncMatchDataAtomic db mid pl rt puuid fetch).2
            mid pl rt ftl).2.1 := by
        rw [runFresh_eq, if_pos hflag]
      have hfr := syncMatchTimelineAtomic_frames
        (syncMatchDataAtomic db mid pl rt puuid fetch).2 mid pl rt ftl
      have hrep := syncMatchDataAtomic_replay db
        (runFreshMatchSync db mid pl rt puuid fetch ftl) mid pl rt puuid fetch hnd
        (by rw [hd1]; exact hfr.1)
        (by rw [hd1]; exact hfr.2.1)
        (by rw [hd1]; exact hfr.2.2)
      rw [runFresh_eq (runFreshMatchSync db mid pl rt puuid fetch ftl), hrep]
      simp only [hflag, if_true]
      rw [hd1]
      exact syncMatchTimelineAtomic_replay
        (syncMatchDataAtomic db mid pl rt puuid fetch).2 mid pl rt ftl
    · have hd1 : runFreshMatchSync db mid pl rt puuid fetch ftl =
          (syncMatchDataAtomic db mid pl rt puuid fetch).2 := by
        rw [runFresh_eq, if_neg hflag]
      have hrep := syncMatchDataAtomic_replay db
        (runFreshMatchSync db mid pl rt puuid fetch ftl) mid pl rt puuid fetch hnd
        (by rw [hd1]) (by rw [hd1]) (by rw [hd1])
      rw [runFresh_eq (runFreshMatchSync db mid pl rt puuid fetch ftl), hrep]
      rw [Bool.not_eq_true] at hflag
      simp only [hflag, Bool.false_eq_true, if_false]
  refine ⟨hmain, hnod.1, hnod.2.1, hnod.2.2, ?_⟩
  intro q
  rw [hmain]

/-- Witness for C4: running the fresh-sync path twice for match M1 on an
empty store, with a two-participant body and a timeline body, leaves the
store of the first run unchanged. -/
theorem fresh_sync_idempotent_witness :
    runFreshMatchSync
      (runFreshMatchSync
        { summoners := [], matchRows := [], participants := [], timelines := [] }
        "M1" "na1" "americas" "PUUID-A" (.ok sampleMatchData) (.ok sampleTimelineData))
      "M1" "na1" "americas" "PUUID-A" (.ok sampleMatchData) (.ok sampleTimelineData) =
    runFreshMatchSync
      { summoners := [], matchRows := [], participants := [], timelines := [] }
      "M1" "na1" "americas" "PUUID-A" (.ok sampleMatchData) (.ok sampleTimelineData) := by
  exact (fresh_sync_idempotent
    { summoners := [], matchRows := [], participants := [], timelines := [] }
    "M1" "na1" "americas" "PUUID-A" (.ok sampleMatchData) (.ok sampleTimelineData)
    (by
      intro data hd
      injection hd with h
      subst h
      decide)
    (by decide) (by decide) (by decide)).1
